import Mathlib

/-!
Verification development for the Log-Analyzer-App repository.

The repository contains two Python engines:
  * `src/log_parser.py`             — regex based (namespace `RE` below);
  * `src/ParsingScript/log_parser.py` — parse-template based (namespace `PS` below).

Both engines are shallowly embedded.  The external matching libraries
(`re` and `parse`) are modelled as oracle functions supplied as inputs:
a compiled regex is a function `String → Option (List String)` returning
the list of capture groups of `regex.match(line)` (or `none`), and a
compiled parse template is a function `String → Option PRes` returning
the named and positional captures of `parse.parse(pattern, line)`.
`re.compile` is modelled as an oracle `String → Except String Matcher`
applied — exactly as in the source — to the sanitized pattern text.
Python `str.strip`, `str.lower`, `str.startswith` and dict insertion
are modelled explicitly below.
-/

/-- Model of the ASCII whitespace characters stripped by Python `str.strip()`. -/
def pyIsWS (c : Char) : Bool :=
  c = ' ' ∨ c = '\t' ∨ c = '\n' ∨ c = '\r' ∨ c = '\x0b' ∨ c = '\x0c'

/-- Model of Python `str.strip()` (strip leading and trailing whitespace). -/
def pyStrip (s : String) : String :=
  String.mk (((s.data.dropWhile pyIsWS).reverse.dropWhile pyIsWS).reverse)

/-- Model of Python `str.lower()`. -/
def pyLower (s : String) : String :=
  String.mk (s.data.map Char.toLower)

/-- Model of Python `str.startswith(p)`. -/
def pyStartsWith (s p : String) : Bool :=
  p.data.isPrefixOf s.data

/-- Model of Python dict assignment `d[k] = v`: update in place if the key is
present (keeping insertion order), otherwise append at the end.  (Dicts built
by the engines never contain a key twice, so updating the first occurrence is
the Python behavior.) -/
def dictInsert : List (String × String) → String → String → List (String × String)
  | [], k, v => [(k, v)]
  | kv :: d, k, v => if kv.1 = k then (k, v) :: d else kv :: dictInsert d k v

/-- Model of Python dict lookup `d[k]` / `k in d`. -/
def dictGet : List (String × String) → String → Option String
  | [], _ => none
  | kv :: d, k => if kv.1 = k then some kv.2 else dictGet d k

/-- The non-empty stripped lines of a raw file, in order: the lines both
engines actually consider (blank lines are skipped and not counted). -/
def cleanLines (raw : List String) : List String :=
  (raw.map pyStrip).filter (fun s => s ≠ "")

/-- One output record: the Python dict `{"Fields": …, "FieldOrder": …}`. -/
structure Entry where
  fields : List (String × String)
  fieldOrder : List String
deriving DecidableEq

/-- Result envelope of both Python engines: `{"success": true, "data": …}` or
`{"success": false, "error": …}`. -/
inductive PyResult where
  | ok (data : List Entry)
  | err (msg : String)
deriving DecidableEq

/-- `ROBUST_CHECK_LINES` from both source files. -/
def ROBUST_CHECK_LINES : Nat := 5

/-- The sampling loop shared by both `suggest_robust_pattern` variants:
collect stripped non-empty lines, stopping as soon as `k` are collected.
Faithful to the source for every `k ≥ 1` (the loop is entered with the
break threshold not yet reached). -/
def collectSample : Nat → List String → List String
  | _, [] => []
  | k, l :: ls =>
    let s := pyStrip l
    if s = "" then collectSample k ls
    else if k ≤ 1 then [s] else s :: collectSample (k - 1) ls

/-- One iteration of the scoring loop shared by both `suggest_robust_pattern`
variants.  `key p = none` models a candidate whose pattern raises on
compilation/search (skipped); `key p = some (score, groups)` gives its
score over the sample and its declared field count.  The state is
`(best_pattern_def, highest_score, max_capture_groups)`. -/
def selStep {α : Type} (key : α → Option (Nat × Nat)) (st : α × Nat × Nat) (p : α) :
    α × Nat × Nat :=
  match key p with
  | none => st
  | some sg =>
    if st.2.1 < sg.1 then (p, sg.1, sg.2)
    else if sg.1 = st.2.1 ∧ st.2.2 < sg.2 then (p, st.2.1, sg.2)
    else st

/-- The full scoring loop: fold `selStep` over the catalog starting from
`(catalog[0], 0, len(catalog[0].field_names))`. -/
def selectFrom {α : Type} (key : α → Option (Nat × Nat)) (c0 : α) (g0 : Nat)
    (catalog : List α) : α :=
  (catalog.foldl (selStep key) (c0, 0, g0)).1

/-- Spec-side strict order on `(score, field_count)` pairs: strictly higher
score wins; on equal score, strictly more fields wins. -/
def pairLt (a b : Nat × Nat) : Prop :=
  a.1 < b.1 ∨ (a.1 = b.1 ∧ a.2 < b.2)

/-- Spec-side non-strict order on `(score, field_count)` pairs. -/
def pairLe (a b : Nat × Nat) : Prop :=
  a.1 < b.1 ∨ (a.1 = b.1 ∧ a.2 ≤ b.2)

instance (a b : Nat × Nat) : Decidable (pairLt a b) := by
  unfold pairLt; infer_instance

instance (a b : Nat × Nat) : Decidable (pairLe a b) := by
  unfold pairLe; infer_instance

/-- Modelled from the spec's words (§4.2): "Track the best Template by the
following total order: higher score wins; on equal score, the Template with
the greater `len(field_names)` wins; on further tie, the first-encountered
candidate in catalog order wins."  A left fold keeping the current best on
non-strict comparisons is exactly that selection rule. -/
def chooseBest {α : Type} (k : α → Nat × Nat) (b : α) (l : List α) : α :=
  l.foldl (fun acc p => if pairLt (k acc) (k p) then p else acc) b

namespace RE

/-- `sanitize_pattern` from `src/log_parser.py`: replace every single
backslash by two backslashes (Python `pattern.replace('\\', '\\\\')`,
modelled character by character). -/
def sanitize_pattern (p : String) : String :=
  String.mk (p.data.flatMap (fun c => if c = '\\' then ['\\', '\\'] else [c]))

/-- One catalog entry of the regex engine (`COMMON_LOG_PATTERNS` element). -/
structure PatternDef where
  pattern : String
  description : String
  field_names : List String
deriving DecidableEq

/-- The strict-mode failure message of `src/log_parser.py`. -/
def strictFailMsg (total : Nat) : String :=
  "The pattern matched 0 of " ++ toString total ++
    " lines. This strict check is performed for custom patterns. Please verify your regex or use the default pattern for best-effort parsing."

/-- Field extraction on a successful match: `entry["Fields"][field_names[i]] =
match.group(i + 1).strip()` for `i in range(expected_groups)`.  `zip`
truncates to the declared field count, as the Python loop does when enough
groups exist. -/
def mkEntryFields (fns : List String) (gs : List String) : List (String × String) :=
  (fns.zip gs).foldl (fun d nv => dictInsert d nv.1 (pyStrip nv.2)) []

/-- The best-effort fallback entry of `src/log_parser.py`: every non-catch-all
field is set to `"N/A"`, the catch-all (last) field receives the marked full
line, then the first field is overwritten with `"N/A"` if its lowercased name
starts with `timestamp`, and the second with `"UNRECOGNIZED"` if its
lowercased name starts with `level`. -/
def fallbackEntry (fns : List String) (line : String) : Entry :=
  let catchAll := (fns.getLast?).getD "Message"
  let others := fns.dropLast
  let d := others.foldl (fun d n => dictInsert d n "N/A") []
  let d := dictInsert d catchAll ("[UNPARSED] " ++ line)
  let d :=
    match fns.head? with
    | some f0 => if pyStartsWith (pyLower f0) "timestamp" then dictInsert d f0 "N/A" else d
    | none => d
  let d :=
    match fns.get? 1 with
    | some f1 => if pyStartsWith (pyLower f1) "level" then dictInsert d f1 "UNRECOGNIZED" else d
    | none => d
  ⟨d, fns⟩

/-- The successful-match entry (both disciplines build it the same way). -/
def matchEntry (fns : List String) (gs : List String) : Entry :=
  ⟨mkEntryFields fns gs, fns⟩

/-- The per-line loop of `RE.parse_log_file`.  `m` is the compiled regex
oracle, `total`/`cnt` are `total_lines`/`parsed_lines_count`.  Lines are
stripped; empty lines are skipped.  Best-effort: a line whose match has at
least the expected number of groups is extracted, any other line gets the
fallback entry; every line yields an entry.  Strict: a line whose match has
exactly the expected number of groups is extracted; otherwise, if no line has
matched yet, the run immediately fails with `strictFailMsg`; otherwise the
line is dropped. -/
def processLines (m : String → Option (List String)) (fns : List String)
    (best : Bool) : List String → Nat → Nat → PyResult
  | [], _, _ => .ok []
  | l :: ls, total, cnt =>
    let line := pyStrip l
    if line = "" then processLines m fns best ls total cnt
    else
      let mr := m line
      if best then
        match mr with
        | some gs =>
          if fns.length ≤ gs.length then
            match processLines m fns best ls (total + 1) (cnt + 1) with
            | .ok rest => .ok (matchEntry fns gs :: rest)
            | .err e => .err e
          else
            match processLines m fns best ls (total + 1) cnt with
            | .ok rest => .ok (fallbackEntry fns line :: rest)
            | .err e => .err e
        | none =>
          match processLines m fns best ls (total + 1) cnt with
          | .ok rest => .ok (fallbackEntry fns line :: rest)
          | .err e => .err e
      else
        match mr with
        | some gs =>
          if gs.length = fns.length then
            match processLines m fns best ls (total + 1) (cnt + 1) with
            | .ok rest => .ok (matchEntry fns gs :: rest)
            | .err e => .err e
          else if cnt = 0 then .err (strictFailMsg (total + 1))
          else processLines m fns best ls (total + 1) cnt
        | none =>
          if cnt = 0 then .err (strictFailMsg (total + 1))
          else processLines m fns best ls (total + 1) cnt

/-- `parse_log_file` of `src/log_parser.py` after pattern compilation: the
compile outcome is checked first (an `re.error` is reported as an invalid
pattern), then the file is opened (`none` models `FileNotFoundError`), then
the per-line loop runs. -/
def runCompiled (compiled : Except String (String → Option (List String)))
    (filePath : String) (fns : List String) (fileContent : Option (List String))
    (best : Bool) : PyResult :=
  match compiled with
  | .error e => .err ("Invalid Regex Pattern provided: " ++ e)
  | .ok m =>
    match fileContent with
    | none => .err ("Error: The file was not found at path: " ++ filePath)
    | some raw => processLines m fns best raw 0 0

/-- `parse_log_file` of `src/log_parser.py`: the caller-supplied pattern is
sanitized and only then handed to the compile oracle `rc` (model of
`re.compile`). -/
def parse_log_file (rc : String → Except String (String → Option (List String)))
    (filePath log_pattern : String) (fns : List String)
    (fileContent : Option (List String)) (best : Bool) : PyResult :=
  runCompiled (rc (sanitize_pattern log_pattern)) filePath fns fileContent best

/-- Whether a stripped line fully matches: `regex.match(line)` succeeds and
produces exactly the expected number of groups. -/
def fullMatchB (m : String → Option (List String)) (expected : Nat) (line : String) : Bool :=
  match m line with
  | some gs => gs.length = expected
  | none => false

/-- `current_score` of the suggestion loop: the number of sample lines that
fully match. -/
def matchCount (m : String → Option (List String)) (expected : Nat)
    (sample : List String) : Nat :=
  sample.countP (fullMatchB m expected)

/-- Per-candidate scoring of the regex suggestion loop: compile the sanitized
pattern (skipping the candidate on `re.error`), then count fully matching
sample lines. -/
def candKeyO (rc : String → Except String (String → Option (List String)))
    (sample : List String) (p : PatternDef) : Option (Nat × Nat) :=
  match rc (sanitize_pattern p.pattern) with
  | .error _ => none
  | .ok m => some (matchCount m p.field_names.length sample, p.field_names.length)

/-- Total version of `candKeyO` (meaningful for candidates that compile). -/
def candKey (rc : String → Except String (String → Option (List String)))
    (sample : List String) (p : PatternDef) : Nat × Nat :=
  (match rc (sanitize_pattern p.pattern) with
   | .error _ => 0
   | .ok m => matchCount m p.field_names.length sample,
   p.field_names.length)

/-- The hardcoded fallback of `suggest_robust_pattern` for an empty catalog. -/
def fallbackDef : PatternDef :=
  ⟨"^(\\S+)\\s+(.*)$", "Critical Error Fallback (UNREACHABLE)", ["Token1", "Message"]⟩

/-- `suggest_robust_pattern` of `src/log_parser.py`: an empty catalog returns
the hardcoded fallback; an unreadable file (`none`) or an empty sample
returns the first catalog entry; otherwise the scoring loop selects the
best candidate. -/
def suggest_robust_pattern (rc : String → Except String (String → Option (List String)))
    (catalog : List PatternDef) (fileContent : Option (List String)) : PatternDef :=
  match catalog with
  | [] => fallbackDef
  | c0 :: rest =>
    match fileContent with
    | none => c0
    | some raw =>
      let sample := collectSample ROBUST_CHECK_LINES raw
      if sample.isEmpty then c0
      else selectFrom (candKeyO rc sample) c0 c0.field_names.length (c0 :: rest)

end RE

namespace PS

/-- Result of a successful `parse.parse(pattern, line)`: the named captures
(`result.named`, a dict) and the positional captures (`result.fixed`). -/
structure PRes where
  named : List (String × String)
  fixed : List String
deriving DecidableEq

/-- A parse template as used by `src/ParsingScript/log_parser.py`:
`compiles` tells whether `parse.compile(pattern)` succeeds, `namedFields`
models `parse.compile(pattern).named_fields`, `run` models
`parse.parse(pattern, ·)` (which raises when the template is invalid —
`compileError` is the exception text). -/
structure PTemplate where
  compiles : Bool
  namedFields : List String
  run : String → Option PRes
  compileError : String

/-- `extract_field_names` of `src/ParsingScript/log_parser.py`: the template's
named fields, or `[]` if compilation fails. -/
def extract_field_names (t : PTemplate) : List String :=
  if t.compiles then t.namedFields else []

/-- Step 1–2 of the successful-parse branch: start from `result.named` and add
each positional capture under `unnamed_{j+1}`, skipping keys already present. -/
def dataOf (r : PRes) : List (String × String) :=
  r.fixed.enum.foldl
    (fun d jv =>
      let key := "unnamed_" ++ toString (jv.1 + 1)
      if d.any (fun kv => kv.1 = key) then d else d ++ [(key, jv.2)])
    r.named

/-- The synthetic names generated for the positional captures of `r`. -/
def synthKeys (r : PRes) : List String :=
  r.fixed.enum.map (fun jv => "unnamed_" ++ toString (jv.1 + 1))

/-- The positional captures of `r` as key/value pairs under their synthetic
names. -/
def synthList (r : PRes) : List (String × String) :=
  r.fixed.enum.map (fun jv => ("unnamed_" ++ toString (jv.1 + 1), jv.2))

/-- The dynamically derived output field list: the template's named fields
followed by every `unnamed_*` key of the data not already present. -/
def outFieldNames (expectedNamed : List String) (data : List (String × String)) :
    List String :=
  data.foldl
    (fun acc kv =>
      if pyStartsWith kv.1 "unnamed_" ∧ ¬ acc.contains kv.1 then acc ++ [kv.1] else acc)
    expectedNamed

/-- Per-line behavior of `PS.parse_log_file`.  On a successful parse the entry
carries all dynamically found fields (values stripped) and, when the derived
field list is non-empty and differs from the caller's `field_names`, the
derived list as `FieldOrder`.  On a failed parse, best-effort mode produces
the single synthetic `FullLine` fallback entry and strict mode drops the
line (`none`). -/
def lineEntry (t : PTemplate) (field_names expectedNamed : List String)
    (best : Bool) (line : String) : Option Entry :=
  match t.run line with
  | some r =>
    let data := dataOf r
    let ofn := outFieldNames expectedNamed data
    let fo := if field_names ≠ ofn ∧ ofn ≠ [] then ofn else field_names
    some ⟨data.map (fun kv => (kv.1, pyStrip kv.2)), fo⟩
  | none =>
    if best then some ⟨[("FullLine", "[UNPARSED] " ++ line)], ["FullLine"]⟩
    else none

/-- The strict-mode failure message of `src/ParsingScript/log_parser.py`. -/
def strictFailMsg (total : Nat) : String :=
  "The custom template matched 0 of " ++ toString total ++
    " lines. Please verify your template."

/-- The run-level template-error message (`parse.parse` raising on an invalid
template is caught by the generic handler). -/
def templateErrMsg (e : String) : String :=
  "An unexpected error occurred during parsing (Template Error?): " ++ e

/-- `parse_log_file` of `src/ParsingScript/log_parser.py`: the file is read
first (`none` models `FileNotFoundError`); a file with no non-empty lines
returns an empty success *before* the template is ever used; with at least
one line, an invalid template raises at the first `parse.parse` call and the
run fails with the generic template-error message; otherwise every line is
processed by `lineEntry`, and a strict run with zero entries fails with the
match-count diagnostic. -/
def parse_log_file (filePath : String) (t : PTemplate) (field_names : List String)
    (best : Bool) (fileContent : Option (List String)) : PyResult :=
  match fileContent with
  | none => .err ("Error: The file was not found at path: " ++ filePath)
  | some raw =>
    let lines := cleanLines raw
    if lines.isEmpty then .ok []
    else if ¬ t.compiles then .err (templateErrMsg t.compileError)
    else
      let entries := lines.filterMap (lineEntry t field_names (extract_field_names t) best)
      if ¬ best ∧ entries.isEmpty then .err (strictFailMsg lines.length)
      else .ok entries

/-- One catalog entry of the template engine's suggestion path.  `searchFn`
models `parse.search(pattern, ·)`; `none` models a template on which
`parse.search` raises (the candidate is skipped). -/
structure SearchDef where
  pattern : String
  description : String
  field_names : List String
  searchFn : Option (String → Option PRes)

/-- Per-candidate scoring of the template suggestion loop: a sample line
counts when `parse.search` returns a result whose named-capture count equals
the candidate's declared field count. -/
def candKeyO (sample : List String) (p : SearchDef) : Option (Nat × Nat) :=
  p.searchFn.map (fun f =>
    (sample.countP (fun l =>
        match f l with
        | some r => r.named.length = p.field_names.length
        | none => false),
     p.field_names.length))

/-- Total version of `PS.candKeyO` (meaningful for candidates that compile). -/
def candKey (sample : List String) (p : SearchDef) : Nat × Nat :=
  ((p.searchFn.map (fun f =>
      sample.countP (fun l =>
        match f l with
        | some r => r.named.length = p.field_names.length
        | none => false))).getD 0,
   p.field_names.length)

/-- The minimal default returned for an empty catalog (`load_patterns()[0]`). -/
def fallbackDef : SearchDef :=
  ⟨"{Token1} {Message}", "Minimal Default (File/Format Error Fallback)",
    ["Token1", "Message"], none⟩

/-- `suggest_robust_pattern` of `src/ParsingScript/log_parser.py`: same
structure as the regex variant, with `parse.search`-based scoring. -/
def suggest_robust_pattern (catalog : List SearchDef)
    (fileContent : Option (List String)) : SearchDef :=
  match catalog with
  | [] => fallbackDef
  | c0 :: rest =>
    match fileContent with
    | none => c0
    | some raw =>
      let sample := collectSample ROBUST_CHECK_LINES raw
      if sample.isEmpty then c0
      else selectFrom (candKeyO sample) c0 c0.field_names.length (c0 :: rest)

end PS

/-!  Concrete oracle instances used by witnesses and counterexamples.  -/

/-- Split a character list at its first space: the text before it and the text
after it. -/
def splitFirstSpace : List Char → Option (String × String)
  | [] => none
  | c :: cs =>
    if c = ' ' then some ("", String.mk cs)
    else (splitFirstSpace cs).map (fun p => (String.mk (c :: p.1.data), p.2))

/-- A concrete compiled-regex oracle: the behavior of `^(\S+)\s+(.*)$` on
space-separated two-part lines (no match when the line has no space or starts
with a space). -/
def twoFieldMatch (line : String) : Option (List String) :=
  match splitFirstSpace line.data with
  | some (a, b) => if a = "" then none else some [a, b]
  | none => none

/-- A concrete `re.compile` oracle: every pattern compiles to `twoFieldMatch`
except the malformed pattern `"bad("`. -/
def rcTwo : String → Except String (String → Option (List String)) :=
  fun s => if s = "bad(" then .error "missing ), unterminated subpattern" else .ok twoFieldMatch

/-- Concrete behavior of `parse.parse("{A} {B}", ·)`: both parts must be
non-empty and separated by a space. -/
def tABrun (line : String) : Option PS.PRes :=
  match splitFirstSpace line.data with
  | some (a, b) => if a = "" ∨ b = "" then none else some ⟨[("A", a), ("B", b)], []⟩
  | none => none

/-- The compiled template `"{A} {B}"`. -/
def tAB : PS.PTemplate := ⟨true, ["A", "B"], tABrun, ""⟩

/-- A template whose pattern does not compile (`parse` raises on it). -/
def tBad : PS.PTemplate := ⟨false, [], fun _ => none, "format spec error"⟩

/-- A compiled template with no fields at all (a literal pattern): parsing the
line `"abc"` succeeds with no captures. -/
def tLit : PS.PTemplate :=
  ⟨true, [], fun l => if l = "abc" then some ⟨[], []⟩ else none, ""⟩

/-- A compiled template with one named field and one positional capture on the
line `"x y"`. -/
def tMixed : PS.PTemplate :=
  ⟨true, ["A"], fun l => if l = "x y" then some ⟨[("A", "x")], ["y"]⟩ else none, ""⟩

namespace RE

/-- The entry produced for one considered line in best-effort mode: extraction
when the match has at least the expected number of groups, the fallback entry
otherwise. -/
def bestEntry (m : String → Option (List String)) (fns : List String)
    (line : String) : Entry :=
  match m line with
  | some gs => if fns.length ≤ gs.length then matchEntry fns gs else fallbackEntry fns line
  | none => fallbackEntry fns line

/-- The entry produced for a fully matching line in strict mode. -/
def strictEntry (m : String → Option (List String)) (fns : List String)
    (line : String) : Entry :=
  matchEntry fns ((m line).getD [])

end RE

/-- A one-field catalog entry (for concrete instantiations). -/
def cexP1 : RE.PatternDef := ⟨"p1", "d1", ["F1"]⟩

/-- A two-field catalog entry (for concrete instantiations). -/
def cexP2 : RE.PatternDef := ⟨"p2", "d2", ["F1", "F2"]⟩

/-- A three-field catalog entry whose pattern does not compile under `rcTwo`. -/
def cexBad3 : RE.PatternDef := ⟨"bad(", "d1", ["F1", "F2", "F3"]⟩

/-- A parse result with one named and one positional capture (the result of
`tMixed` on the line `"x y"`). -/
def cexR : PS.PRes := ⟨[("A", "x")], ["y"]⟩

/-- Template-engine catalog entries for concrete instantiations: a one-field
candidate and a two-field candidate, both of which "compile" but match no
line. -/
def cexS1 : PS.SearchDef := ⟨"{F1}", "d1", ["F1"], some (fun _ => none)⟩

/-- See `cexS1`. -/
def cexS2 : PS.SearchDef := ⟨"{F1} {F2}", "d2", ["F1", "F2"], some (fun _ => none)⟩

/-- A `re.compile` oracle on which every pattern fails to compile. -/
def rcNone : String → Except String (String → Option (List String)) :=
  fun _ => Except.error "nothing compiles"

/-- A template-engine catalog entry on which `parse.search` raises. -/
def cexSBad : PS.SearchDef := ⟨"badtemplate(", "d0", ["F1"], none⟩


/-!  Order lemmas for the `(score, field_count)` selection key.  -/

theorem pairLt_irrefl (a : Nat × Nat) : ¬ pairLt a a := by
  unfold pairLt; omega

theorem not_pairLt_iff {a b : Nat × Nat} : ¬ pairLt a b ↔ pairLe b a := by
  unfold pairLt pairLe; omega

theorem pairLt_trans {a b c : Nat × Nat} (h1 : pairLt a b) (h2 : pairLt b c) :
    pairLt a c := by
  unfold pairLt at h1 h2 ⊢; omega

theorem pairLe_lt_trans {a b c : Nat × Nat} (h1 : pairLe a b) (h2 : pairLt b c) :
    pairLt a c := by
  unfold pairLe at h1; unfold pairLt at h2 ⊢; omega

/-!  The scoring loop implements first-argmax selection under `pairLt`.  -/

theorem chooseBest_cons {α : Type} (k : α → Nat × Nat) (b p : α) (l : List α) :
    chooseBest k b (p :: l) = chooseBest k (if pairLt (k b) (k p) then p else b) l := rfl

theorem selStep_with_key {α : Type} (key : α → Option (Nat × Nat)) (k : α → Nat × Nat)
    (b p : α) (hp : key p = some (k p)) :
    selStep key (b, k b) p
      = ((if pairLt (k b) (k p) then p else b),
         k (if pairLt (k b) (k p) then p else b)) := by
  rcases hkb : k b with ⟨s1, g1⟩
  rcases hkp : k p with ⟨s2, g2⟩
  rw [hkp] at hp
  unfold selStep
  rw [hp]
  dsimp only
  by_cases h1 : s1 < s2
  · have hlt : pairLt (s1, g1) (s2, g2) := Or.inl h1
    rw [if_pos h1, if_pos hlt, hkp]
  · by_cases h2 : s2 = s1 ∧ g1 < g2
    · have hlt : pairLt (s1, g1) (s2, g2) := Or.inr ⟨h2.1.symm, h2.2⟩
      rw [if_neg h1, if_pos h2, if_pos hlt, hkp, h2.1]
    · have hnlt : ¬ pairLt (s1, g1) (s2, g2) := by
        unfold pairLt; dsimp only; omega
      rw [if_neg h1, if_neg h2, if_neg hnlt, hkb]

theorem selStep_init {α : Type} (key : α → Option (Nat × Nat)) (k : α → Nat × Nat)
    (c0 : α) (g0 : Nat) (h : key c0 = some (k c0)) (hg : (k c0).2 = g0) :
    selStep key (c0, 0, g0) c0 = (c0, k c0) := by
  rw [← hg]
  rcases hk : k c0 with ⟨s, g⟩
  rw [hk] at h
  unfold selStep
  rw [h]
  dsimp only
  by_cases h1 : 0 < s
  · rw [if_pos h1]
  · have h0 : s = 0 := by omega
    subst h0
    have h2 : ¬ ((0 : Nat) = 0 ∧ g < g) := by omega
    rw [if_neg h1, if_neg h2]

theorem foldl_selStep_eq {α : Type} (key : α → Option (Nat × Nat)) (k : α → Nat × Nat) :
    ∀ (l : List α) (b : α), (∀ p ∈ l, key p = some (k p)) →
      l.foldl (selStep key) (b, k b) = (chooseBest k b l, k (chooseBest k b l))
  | [], b, _ => rfl
  | p :: l, b, h => by
    have hp : key p = some (k p) := h p (List.mem_cons_self p l)
    have hrest : ∀ q ∈ l, key q = some (k q) := fun q hq => h q (List.mem_cons_of_mem p hq)
    rw [List.foldl_cons, selStep_with_key key k b p hp, chooseBest_cons]
    exact foldl_selStep_eq key k l _ hrest

theorem chooseBest_split {α : Type} (k : α → Nat × Nat) :
    ∀ (l : List α) (b : α), ∃ l1 l2,
      b :: l = l1 ++ chooseBest k b l :: l2 ∧
      (∀ p ∈ l1, pairLt (k p) (k (chooseBest k b l))) ∧
      (∀ p ∈ l2, pairLe (k p) (k (chooseBest k b l)))
  | [], b => ⟨[], [], rfl, by simp, by simp⟩
  | p :: l, b => by
    by_cases hlt : pairLt (k b) (k p)
    · have hstep : chooseBest k b (p :: l) = chooseBest k p l := by
        rw [chooseBest_cons, if_pos hlt]
      obtain ⟨l1, l2, heq, hl1, hl2⟩ := chooseBest_split k l p
      rw [hstep]
      refine ⟨b :: l1, l2, by rw [List.cons_append, ← heq], ?_, hl2⟩
      intro q hq
      rcases List.mem_cons.mp hq with hqb | hq1
      · subst hqb
        cases l1 with
        | nil =>
          have hpr : p = chooseBest k p l ∧ l = l2 := by
            simp only [List.nil_append, List.cons.injEq] at heq
            exact heq
          exact hpr.1 ▸ hlt
        | cons a l1' =>
          have hpa : p = a ∧ l = l1' ++ chooseBest k p l :: l2 := by
            simp only [List.cons_append, List.cons.injEq] at heq
            exact heq
          have hp1 : p ∈ a :: l1' := hpa.1 ▸ List.mem_cons_self a l1'
          exact pairLt_trans hlt (hl1 p hp1)
      · exact hl1 q hq1
    · have hstep : chooseBest k b (p :: l) = chooseBest k b l := by
        rw [chooseBest_cons, if_neg hlt]
      obtain ⟨l1, l2, heq, hl1, hl2⟩ := chooseBest_split k l b
      rw [hstep]
      cases l1 with
      | nil =>
        have hb : b = chooseBest k b l ∧ l = l2 := by
          simp only [List.nil_append, List.cons.injEq] at heq
          exact heq
        refine ⟨[], p :: l2, ?_, by simp, ?_⟩
        · rw [List.nil_append, ← hb.1, hb.2]
        · intro q hq
          rcases List.mem_cons.mp hq with hqp | hq2
          · subst hqp
            exact not_pairLt_iff.mp (hb.1 ▸ hlt)
          · exact hl2 q hq2
      | cons a l1' =>
        have hba : b = a ∧ l = l1' ++ chooseBest k b l :: l2 := by
          simp only [List.cons_append, List.cons.injEq] at heq
          exact heq
        have hbl1 : b ∈ a :: l1' := hba.1 ▸ List.mem_cons_self a l1'
        have hbr : pairLt (k b) (k (chooseBest k b l)) := hl1 b hbl1
        refine ⟨b :: p :: l1', l2, ?_, ?_, hl2⟩
        · rw [List.cons_append, List.cons_append, ← hba.2]
        · intro q hq
          rcases List.mem_cons.mp hq with hqb | hq'
          · exact hqb ▸ hbr
          · rcases List.mem_cons.mp hq' with hqp | hq1'
            · subst hqp
              exact pairLe_lt_trans (not_pairLt_iff.mp hlt) hbr
            · exact hl1 q (hba.1 ▸ List.mem_cons_of_mem a hq1')

/-!  The selection can only move off the first catalog entry onto a candidate
whose key is available (i.e. whose pattern compiles).  -/

theorem foldl_selStep_default_or {α : Type} (key : α → Option (Nat × Nat)) (c0 : α) :
    ∀ (l : List α) (st : α × Nat × Nat),
      (st.1 = c0 ∨ (key st.1).isSome = true) →
      ((l.foldl (selStep key) st).1 = c0 ∨ (key (l.foldl (selStep key) st).1).isSome = true)
  | [], st, h => h
  | p :: l, st, h => by
    refine foldl_selStep_default_or key c0 l (selStep key st p) ?_
    unfold selStep
    cases hk : key p with
    | none => exact h
    | some sg =>
      by_cases h1 : st.2.1 < sg.1
      · simp [h1, hk]
      · by_cases h2 : sg.1 = st.2.1 ∧ st.2.2 < sg.2
        · simp [h1, h2, hk]
        · simp [h1, h2, h]

theorem foldl_selStep_all_none {α : Type} (key : α → Option (Nat × Nat)) :
    ∀ (l : List α) (st : α × Nat × Nat), (∀ p ∈ l, key p = none) →
      l.foldl (selStep key) st = st
  | [], _, _ => rfl
  | p :: l, st, h => by
    have hp : key p = none := h p (List.mem_cons_self p l)
    have : selStep key st p = st := by unfold selStep; rw [hp]
    rw [List.foldl_cons, this]
    exact foldl_selStep_all_none key l st (fun q hq => h q (List.mem_cons_of_mem p hq))

/-!  cleanLines and the sampling loop.  -/

theorem cleanLines_cons (l : String) (ls : List String) :
    cleanLines (l :: ls)
      = if pyStrip l = "" then cleanLines ls else pyStrip l :: cleanLines ls := by
  by_cases h : pyStrip l = "" <;> simp [cleanLines, List.filter_cons, h]

theorem cleanLines_append (r1 r2 : List String) :
    cleanLines (r1 ++ r2) = cleanLines r1 ++ cleanLines r2 := by
  simp [cleanLines, List.filter_append]

theorem collectSample_eq_take : ∀ (raw : List String) (k : Nat), 1 ≤ k →
    collectSample k raw = (cleanLines raw).take k
  | [], k, _ => by simp [collectSample, cleanLines]
  | l :: ls, k, hk => by
    rw [cleanLines_cons]
    by_cases h : pyStrip l = ""
    · rw [if_pos h]
      simp only [collectSample, if_pos h]
      exact collectSample_eq_take ls k hk
    · rw [if_neg h]
      simp only [collectSample, if_neg h]
      by_cases h1 : k ≤ 1
      · have hk1 : k = 1 := by omega
        subst hk1
        simp
      · rw [if_neg h1]
        obtain ⟨k', hk', hk1⟩ : ∃ k', k = k' + 1 ∧ 1 ≤ k' := ⟨k - 1, by omega, by omega⟩
        subst hk'
        simp only [Nat.add_sub_cancel]
        rw [List.take_succ_cons, collectSample_eq_take ls k' hk1]

theorem collectSample_append_of_ge (raw extra : List String)
    (h : 5 ≤ (cleanLines raw).length) :
    collectSample ROBUST_CHECK_LINES (raw ++ extra)
      = collectSample ROBUST_CHECK_LINES raw := by
  show collectSample 5 (raw ++ extra) = collectSample 5 raw
  rw [collectSample_eq_take _ 5 (by omega), collectSample_eq_take _ 5 (by omega),
    cleanLines_append, List.take_append_eq_append_take]
  have h0 : 5 - (cleanLines raw).length = 0 := by omega
  rw [h0]
  simp

/-!  Suggestion scoring: relating the oracle key to the total key.  -/

theorem RE.candKeyO_eq_some (rc : String → Except String (String → Option (List String)))
    (sample : List String) (p : RE.PatternDef) (m : String → Option (List String))
    (hm : rc (RE.sanitize_pattern p.pattern) = Except.ok m) :
    RE.candKeyO rc sample p = some (RE.candKey rc sample p) := by
  unfold RE.candKeyO RE.candKey
  rw [hm]

theorem RE.candKeyO_isSome_iff (rc : String → Except String (String → Option (List String)))
    (sample : List String) (p : RE.PatternDef) :
    (RE.candKeyO rc sample p).isSome = true
      ↔ ∃ m, rc (RE.sanitize_pattern p.pattern) = Except.ok m := by
  unfold RE.candKeyO
  cases h : rc (RE.sanitize_pattern p.pattern) with
  | error e => simp
  | ok m => simp

theorem PS.psCandKeyO_eq_some (sample : List String) (p : PS.SearchDef)
    (f : String → Option PS.PRes) (hf : p.searchFn = some f) :
    PS.candKeyO sample p = some (PS.candKey sample p) := by
  unfold PS.candKeyO PS.candKey
  rw [hf]
  rfl

theorem PS.psCandKeyO_isSome_iff (sample : List String) (p : PS.SearchDef) :
    (PS.candKeyO sample p).isSome = true ↔ p.searchFn.isSome = true := by
  unfold PS.candKeyO
  cases p.searchFn <;> simp

/-!  The suggestion loops compute the first-argmax selection.  -/

theorem RE.suggest_eq_chooseBest (rc : String → Except String (String → Option (List String)))
    (c0 : RE.PatternDef) (rest : List RE.PatternDef) (raw : List String)
    (hs : (collectSample ROBUST_CHECK_LINES raw).isEmpty = false)
    (hc : ∀ p ∈ c0 :: rest, ∃ m, rc (RE.sanitize_pattern p.pattern) = Except.ok m) :
    RE.suggest_robust_pattern rc (c0 :: rest) (some raw)
      = chooseBest (RE.candKey rc (collectSample ROBUST_CHECK_LINES raw)) c0 rest := by
  have hkey : ∀ p ∈ c0 :: rest,
      RE.candKeyO rc (collectSample ROBUST_CHECK_LINES raw) p
        = some (RE.candKey rc (collectSample ROBUST_CHECK_LINES raw) p) := by
    intro p hp
    obtain ⟨m, hm⟩ := hc p hp
    exact RE.candKeyO_eq_some rc _ p m hm
  simp only [RE.suggest_robust_pattern]
  rw [if_neg (by rw [hs]; exact Bool.false_ne_true)]
  unfold selectFrom
  rw [List.foldl_cons,
    selStep_init (RE.candKeyO rc _) (RE.candKey rc _) c0 c0.field_names.length
      (hkey c0 (List.mem_cons_self _ _)) rfl,
    foldl_selStep_eq (RE.candKeyO rc _) (RE.candKey rc _) rest c0
      (fun q hq => hkey q (List.mem_cons_of_mem c0 hq))]

theorem PS.psSuggest_eq_chooseBest (c0 : PS.SearchDef) (rest : List PS.SearchDef)
    (raw : List String)
    (hs : (collectSample ROBUST_CHECK_LINES raw).isEmpty = false)
    (hc : ∀ p ∈ c0 :: rest, ∃ f, p.searchFn = some f) :
    PS.suggest_robust_pattern (c0 :: rest) (some raw)
      = chooseBest (PS.candKey (collectSample ROBUST_CHECK_LINES raw)) c0 rest := by
  have hkey : ∀ p ∈ c0 :: rest,
      PS.candKeyO (collectSample ROBUST_CHECK_LINES raw) p
        = some (PS.candKey (collectSample ROBUST_CHECK_LINES raw) p) := by
    intro p hp
    obtain ⟨f, hf⟩ := hc p hp
    exact PS.psCandKeyO_eq_some _ p f hf
  simp only [PS.suggest_robust_pattern]
  rw [if_neg (by rw [hs]; exact Bool.false_ne_true)]
  unfold selectFrom
  rw [List.foldl_cons,
    selStep_init (PS.candKeyO _) (PS.candKey _) c0 c0.field_names.length
      (hkey c0 (List.mem_cons_self _ _)) rfl,
    foldl_selStep_eq (PS.candKeyO _) (PS.candKey _) rest c0
      (fun q hq => hkey q (List.mem_cons_of_mem c0 hq))]

/-!  The selection can only leave the first entry for a compilable candidate.  -/

theorem RE.suggest_default_or (rc : String → Except String (String → Option (List String)))
    (c0 : RE.PatternDef) (rest : List RE.PatternDef) (fc : Option (List String)) :
    RE.suggest_robust_pattern rc (c0 :: rest) fc = c0 ∨
    (∃ m, rc (RE.sanitize_pattern
        (RE.suggest_robust_pattern rc (c0 :: rest) fc).pattern) = Except.ok m) := by
  cases fc with
  | none => exact Or.inl rfl
  | some raw =>
    simp only [RE.suggest_robust_pattern]
    by_cases hs : (collectSample ROBUST_CHECK_LINES raw).isEmpty = true
    · rw [if_pos hs]
      exact Or.inl rfl
    · rw [if_neg hs]
      unfold selectFrom
      rcases foldl_selStep_default_or (RE.candKeyO rc (collectSample ROBUST_CHECK_LINES raw))
          c0 (c0 :: rest) (c0, 0, c0.field_names.length) (Or.inl rfl) with h | h
      · exact Or.inl h
      · exact Or.inr ((RE.candKeyO_isSome_iff rc _ _).mp h)

theorem RE.suggest_all_uncompilable (rc : String → Except String (String → Option (List String)))
    (c0 : RE.PatternDef) (rest : List RE.PatternDef) (fc : Option (List String))
    (h : ∀ p ∈ c0 :: rest, ∀ m, rc (RE.sanitize_pattern p.pattern) ≠ Except.ok m) :
    RE.suggest_robust_pattern rc (c0 :: rest) fc = c0 := by
  cases fc with
  | none => rfl
  | some raw =>
    simp only [RE.suggest_robust_pattern]
    by_cases hs : (collectSample ROBUST_CHECK_LINES raw).isEmpty = true
    · rw [if_pos hs]
    · rw [if_neg hs]
      unfold selectFrom
      have hnone : ∀ p ∈ c0 :: rest,
          RE.candKeyO rc (collectSample ROBUST_CHECK_LINES raw) p = none := by
        intro p hp
        unfold RE.candKeyO
        cases hrc : rc (RE.sanitize_pattern p.pattern) with
        | error e => rfl
        | ok m => exact absurd hrc (h p hp m)
      rw [foldl_selStep_all_none _ _ _ hnone]

theorem PS.psSuggest_default_or (c0 : PS.SearchDef) (rest : List PS.SearchDef)
    (fc : Option (List String)) :
    PS.suggest_robust_pattern (c0 :: rest) fc = c0 ∨
    (PS.suggest_robust_pattern (c0 :: rest) fc).searchFn.isSome = true := by
  cases fc with
  | none => exact Or.inl rfl
  | some raw =>
    simp only [PS.suggest_robust_pattern]
    by_cases hs : (collectSample ROBUST_CHECK_LINES raw).isEmpty = true
    · rw [if_pos hs]
      exact Or.inl rfl
    · rw [if_neg hs]
      unfold selectFrom
      rcases foldl_selStep_default_or (PS.candKeyO (collectSample ROBUST_CHECK_LINES raw))
          c0 (c0 :: rest) (c0, 0, c0.field_names.length) (Or.inl rfl) with h | h
      · exact Or.inl h
      · exact Or.inr ((PS.psCandKeyO_isSome_iff _ _).mp h)

theorem PS.psSuggest_all_uncompilable (c0 : PS.SearchDef) (rest : List PS.SearchDef)
    (fc : Option (List String)) (h : ∀ p ∈ c0 :: rest, p.searchFn = none) :
    PS.suggest_robust_pattern (c0 :: rest) fc = c0 := by
  cases fc with
  | none => rfl
  | some raw =>
    simp only [PS.suggest_robust_pattern]
    by_cases hs : (collectSample ROBUST_CHECK_LINES raw).isEmpty = true
    · rw [if_pos hs]
    · rw [if_neg hs]
      unfold selectFrom
      have hnone : ∀ p ∈ c0 :: rest,
          PS.candKeyO (collectSample ROBUST_CHECK_LINES raw) p = none := by
        intro p hp
        unfold PS.candKeyO
        rw [h p hp]
        rfl
      rw [foldl_selStep_all_none _ _ _ hnone]

/-- C9: for every input file, the suggestion sample consists of exactly the
first `ROBUST_CHECK_LINES = 5` non-empty, whitespace-trimmed lines in file
order (fewer if the file is exhausted first), and once five such lines exist
the sample — and hence the whole suggestion, in both engines — never depends
on any line after the fifth non-empty one. -/
theorem c9_sample_first_five :
    (∀ raw : List String,
      collectSample ROBUST_CHECK_LINES raw = (cleanLines raw).take 5)
    ∧ (∀ raw extra : List String, 5 ≤ (cleanLines raw).length →
      collectSample ROBUST_CHECK_LINES (raw ++ extra)
        = collectSample ROBUST_CHECK_LINES raw)
    ∧ (∀ (rc : String → Except String (String → Option (List String)))
        (catalog : List RE.PatternDef) (raw extra : List String),
        5 ≤ (cleanLines raw).length →
        RE.suggest_robust_pattern rc catalog (some (raw ++ extra))
          = RE.suggest_robust_pattern rc catalog (some raw))
    ∧ (∀ (catalog : List PS.SearchDef) (raw extra : List String),
        5 ≤ (cleanLines raw).length →
        PS.suggest_robust_pattern catalog (some (raw ++ extra))
          = PS.suggest_robust_pattern catalog (some raw)) := by
  refine ⟨fun raw => collectSample_eq_take raw 5 (by omega),
    fun raw extra h => collectSample_append_of_ge raw extra h, ?_, ?_⟩
  · intro rc catalog raw extra h
    cases catalog with
    | nil => rfl
    | cons c0 rest =>
      simp only [RE.suggest_robust_pattern]
      rw [collectSample_append_of_ge raw extra h]
  · intro catalog raw extra h
    cases catalog with
    | nil => rfl
    | cons c0 rest =>
      simp only [PS.suggest_robust_pattern]
      rw [collectSample_append_of_ge raw extra h]

theorem c9_witness :
    collectSample ROBUST_CHECK_LINES ["a", "", "b", "c", "d", "e", "f"]
      = (cleanLines ["a", "", "b", "c", "d", "e", "f"]).take 5
    ∧ collectSample ROBUST_CHECK_LINES (["a", "b", "c", "d", "e"] ++ ["zz"])
      = collectSample ROBUST_CHECK_LINES ["a", "b", "c", "d", "e"]
    ∧ RE.suggest_robust_pattern rcTwo [cexP1] (some (["a", "b", "c", "d", "e"] ++ ["zz"]))
      = RE.suggest_robust_pattern rcTwo [cexP1] (some ["a", "b", "c", "d", "e"])
    ∧ PS.suggest_robust_pattern [cexS1] (some (["a", "b", "c", "d", "e"] ++ ["zz"]))
      = PS.suggest_robust_pattern [cexS1] (some ["a", "b", "c", "d", "e"]) :=
  ⟨c9_sample_first_five.1 _,
   c9_sample_first_five.2.1 ["a", "b", "c", "d", "e"] ["zz"] (by decide),
   c9_sample_first_five.2.2.1 rcTwo [cexP1] ["a", "b", "c", "d", "e"] ["zz"] (by decide),
   c9_sample_first_five.2.2.2 [cexS1] ["a", "b", "c", "d", "e"] ["zz"] (by decide)⟩

/-- C3 (amended): for every catalog whose candidates all compile and every
NONEMPTY sample, both suggestion engines select the candidate that is maximal
under the claimed total order — the catalog splits as `l1 ++ winner :: l2`
with every earlier candidate strictly below the winner (higher score first,
then more declared fields) and every later candidate not above it, so an
established tie is never overturned.  An empty sample instead short-circuits
to the first catalog entry unscored (see the counterexample). -/
theorem c3_suggestion_total_order :
    (∀ (rc : String → Except String (String → Option (List String)))
       (c0 : RE.PatternDef) (rest : List RE.PatternDef) (raw : List String),
      (collectSample ROBUST_CHECK_LINES raw).isEmpty = false →
      (∀ p ∈ c0 :: rest, ∃ m, rc (RE.sanitize_pattern p.pattern) = Except.ok m) →
      ∃ l1 l2,
        c0 :: rest = l1 ++ RE.suggest_robust_pattern rc (c0 :: rest) (some raw) :: l2
        ∧ (∀ p ∈ l1, pairLt
            (RE.candKey rc (collectSample ROBUST_CHECK_LINES raw) p)
            (RE.candKey rc (collectSample ROBUST_CHECK_LINES raw)
              (RE.suggest_robust_pattern rc (c0 :: rest) (some raw))))
        ∧ (∀ p ∈ l2, pairLe
            (RE.candKey rc (collectSample ROBUST_CHECK_LINES raw) p)
            (RE.candKey rc (collectSample ROBUST_CHECK_LINES raw)
              (RE.suggest_robust_pattern rc (c0 :: rest) (some raw)))))
    ∧ (∀ (c0 : PS.SearchDef) (rest : List PS.SearchDef) (raw : List String),
      (collectSample ROBUST_CHECK_LINES raw).isEmpty = false →
      (∀ p ∈ c0 :: rest, ∃ f, p.searchFn = some f) →
      ∃ l1 l2,
        c0 :: rest = l1 ++ PS.suggest_robust_pattern (c0 :: rest) (some raw) :: l2
        ∧ (∀ p ∈ l1, pairLt
            (PS.candKey (collectSample ROBUST_CHECK_LINES raw) p)
            (PS.candKey (collectSample ROBUST_CHECK_LINES raw)
              (PS.suggest_robust_pattern (c0 :: rest) (some raw))))
        ∧ (∀ p ∈ l2, pairLe
            (PS.candKey (collectSample ROBUST_CHECK_LINES raw) p)
            (PS.candKey (collectSample ROBUST_CHECK_LINES raw)
              (PS.suggest_robust_pattern (c0 :: rest) (some raw))))) := by
  constructor
  · intro rc c0 rest raw hs hc
    rw [RE.suggest_eq_chooseBest rc c0 rest raw hs hc]
    exact chooseBest_split (RE.candKey rc (collectSample ROBUST_CHECK_LINES raw)) rest c0
  · intro c0 rest raw hs hc
    rw [PS.psSuggest_eq_chooseBest c0 rest raw hs hc]
    exact chooseBest_split (PS.candKey (collectSample ROBUST_CHECK_LINES raw)) rest c0

theorem c3_witness :
    (collectSample ROBUST_CHECK_LINES ["a b"]).isEmpty = false
    ∧ (∃ l1 l2,
        [cexP1, cexP2] = l1 ++ RE.suggest_robust_pattern rcTwo [cexP1, cexP2] (some ["a b"]) :: l2
        ∧ (∀ p ∈ l1, pairLt
            (RE.candKey rcTwo (collectSample ROBUST_CHECK_LINES ["a b"]) p)
            (RE.candKey rcTwo (collectSample ROBUST_CHECK_LINES ["a b"])
              (RE.suggest_robust_pattern rcTwo [cexP1, cexP2] (some ["a b"]))))
        ∧ (∀ p ∈ l2, pairLe
            (RE.candKey rcTwo (collectSample ROBUST_CHECK_LINES ["a b"]) p)
            (RE.candKey rcTwo (collectSample ROBUST_CHECK_LINES ["a b"])
              (RE.suggest_robust_pattern rcTwo [cexP1, cexP2] (some ["a b"]))))) := by
  have hc : ∀ p ∈ [cexP1, cexP2], ∃ m, rcTwo (RE.sanitize_pattern p.pattern) = Except.ok m := by
    intro p hp
    rcases List.mem_cons.mp hp with h | hp'
    · exact ⟨twoFieldMatch, by rw [h]; rfl⟩
    rcases List.mem_cons.mp hp' with h | hp''
    · exact ⟨twoFieldMatch, by rw [h]; rfl⟩
    · exact absurd hp'' (List.not_mem_nil p)
  exact ⟨by decide, c3_suggestion_total_order.1 rcTwo cexP1 [cexP2] ["a b"] (by decide) hc⟩

theorem c3_counterexample :
    RE.suggest_robust_pattern rcTwo [cexP1, cexP2] (some ["", "   "]) = cexP1
    ∧ pairLt (RE.candKey rcTwo (collectSample ROBUST_CHECK_LINES ["", "   "]) cexP1)
        (RE.candKey rcTwo (collectSample ROBUST_CHECK_LINES ["", "   "]) cexP2)
    ∧ ¬ ∃ l1 l2,
        [cexP1, cexP2]
          = l1 ++ RE.suggest_robust_pattern rcTwo [cexP1, cexP2] (some ["", "   "]) :: l2
        ∧ (∀ p ∈ l1, pairLt
            (RE.candKey rcTwo (collectSample ROBUST_CHECK_LINES ["", "   "]) p)
            (RE.candKey rcTwo (collectSample ROBUST_CHECK_LINES ["", "   "])
              (RE.suggest_robust_pattern rcTwo [cexP1, cexP2] (some ["", "   "]))))
        ∧ (∀ p ∈ l2, pairLe
            (RE.candKey rcTwo (collectSample ROBUST_CHECK_LINES ["", "   "]) p)
            (RE.candKey rcTwo (collectSample ROBUST_CHECK_LINES ["", "   "])
              (RE.suggest_robust_pattern rcTwo [cexP1, cexP2] (some ["", "   "])))) := by
  refine ⟨by decide, by decide, ?_⟩
  rintro ⟨l1, l2, heq, hlt, hle⟩
  have hmem : cexP2 ∈ l1 ++ RE.suggest_robust_pattern rcTwo [cexP1, cexP2] (some ["", "   "]) :: l2 :=
    heq ▸ (by decide : cexP2 ∈ [cexP1, cexP2])
  rcases List.mem_append.mp hmem with h1 | h2
  · exact absurd (hlt cexP2 h1) (by decide)
  · rcases List.mem_cons.mp h2 with h3 | h4
    · exact absurd h3 (by decide)
    · exact absurd (hle cexP2 h4) (by decide)

/-- C5 (amended): during suggestion scoring a candidate whose pattern fails
to compile is skipped, so the selected template is always either compilable
or the (possibly uncompilable) first catalog entry, and a catalog consisting
entirely of uncompilable templates returns the first entry unscored.  The
claim's final implication is refuted by the counterexample: when the first
entry is uncompilable it can still be selected even though a later candidate
compiles, because the default never needed a score to win. -/
theorem c5_uncompilable_candidates :
    (∀ (rc : String → Except String (String → Option (List String)))
       (c0 : RE.PatternDef) (rest : List RE.PatternDef) (fc : Option (List String)),
      RE.suggest_robust_pattern rc (c0 :: rest) fc = c0 ∨
      (∃ m, rc (RE.sanitize_pattern
          (RE.suggest_robust_pattern rc (c0 :: rest) fc).pattern) = Except.ok m))
    ∧ (∀ (rc : String → Except String (String → Option (List String)))
       (c0 : RE.PatternDef) (rest : List RE.PatternDef) (fc : Option (List String)),
      (∀ p ∈ c0 :: rest, ∀ m, rc (RE.sanitize_pattern p.pattern) ≠ Except.ok m) →
      RE.suggest_robust_pattern rc (c0 :: rest) fc = c0)
    ∧ (∀ (c0 : PS.SearchDef) (rest : List PS.SearchDef) (fc : Option (List String)),
      PS.suggest_robust_pattern (c0 :: rest) fc = c0 ∨
      (PS.suggest_robust_pattern (c0 :: rest) fc).searchFn.isSome = true)
    ∧ (∀ (c0 : PS.SearchDef) (rest : List PS.SearchDef) (fc : Option (List String)),
      (∀ p ∈ c0 :: rest, p.searchFn = none) →
      PS.suggest_robust_pattern (c0 :: rest) fc = c0) :=
  ⟨RE.suggest_default_or, RE.suggest_all_uncompilable,
   PS.psSuggest_default_or, PS.psSuggest_all_uncompilable⟩

theorem c5_witness :
    (∀ p ∈ [cexBad3], ∀ m, rcNone (RE.sanitize_pattern p.pattern) ≠ Except.ok m)
    ∧ RE.suggest_robust_pattern rcNone [cexBad3] (some ["x"]) = cexBad3
    ∧ (∀ p ∈ [cexSBad], p.searchFn = (none : Option (String → Option PS.PRes)))
    ∧ PS.suggest_robust_pattern [cexSBad] (some ["x"]) = cexSBad := by
  have h1 : ∀ p ∈ [cexBad3], ∀ m, rcNone (RE.sanitize_pattern p.pattern) ≠ Except.ok m := by
    intro p _ m hm
    exact Except.noConfusion hm
  have h2 : ∀ p ∈ [cexSBad], p.searchFn = (none : Option (String → Option PS.PRes)) := by
    intro p hp
    rcases List.mem_cons.mp hp with h | h
    · rw [h]; rfl
    · exact absurd h (List.not_mem_nil p)
  exact ⟨h1, c5_uncompilable_candidates.2.1 rcNone cexBad3 [] (some ["x"]) h1,
    h2, c5_uncompilable_candidates.2.2.2 cexSBad [] (some ["x"]) h2⟩

theorem c5_counterexample :
    RE.suggest_robust_pattern rcTwo [cexBad3, cexP2] (some ["hello"]) = cexBad3
    ∧ (∀ m, rcTwo (RE.sanitize_pattern cexBad3.pattern) ≠ Except.ok m)
    ∧ (∃ m, rcTwo (RE.sanitize_pattern cexP2.pattern) = Except.ok m) := by
  refine ⟨by decide, ?_, ⟨twoFieldMatch, rfl⟩⟩
  intro m hm
  rw [show rcTwo (RE.sanitize_pattern cexBad3.pattern)
      = Except.error "missing ), unterminated subpattern" from rfl] at hm
  exact Except.noConfusion hm

/-!  The regex engine's per-line loop.  -/

theorem RE.processLines_best (m : String → Option (List String)) (fns : List String) :
    ∀ (raw : List String) (total cnt : Nat),
      RE.processLines m fns true raw total cnt
        = .ok ((cleanLines raw).map (RE.bestEntry m fns))
  | [], _, _ => rfl
  | l :: ls, total, cnt => by
    rw [cleanLines_cons]
    by_cases h : pyStrip l = ""
    · rw [if_pos h]
      simp only [RE.processLines, if_pos h]
      exact RE.processLines_best m fns ls total cnt
    · rw [if_neg h]
      simp only [RE.processLines, if_neg h]
      cases hm : m (pyStrip l) with
      | some gs =>
        by_cases hlen : fns.length ≤ gs.length
        · simp [hm, hlen, RE.processLines_best m fns ls (total + 1) (cnt + 1), RE.bestEntry]
        · simp [hm, hlen, RE.processLines_best m fns ls (total + 1) cnt, RE.bestEntry]
      | none =>
        simp [hm, RE.processLines_best m fns ls (total + 1) cnt, RE.bestEntry]

theorem RE.processLines_nilclean (m : String → Option (List String)) (fns : List String)
    (best : Bool) :
    ∀ (raw : List String) (total cnt : Nat), cleanLines raw = [] →
      RE.processLines m fns best raw total cnt = .ok []
  | [], _, _, _ => rfl
  | l :: ls, total, cnt, h => by
    rw [cleanLines_cons] at h
    by_cases hb : pyStrip l = ""
    · rw [if_pos hb] at h
      simp only [RE.processLines, if_pos hb]
      exact RE.processLines_nilclean m fns best ls total cnt h
    · rw [if_neg hb] at h
      exact absurd h (List.cons_ne_nil _ _)

theorem RE.processLines_filter_blank (m : String → Option (List String)) (fns : List String)
    (best : Bool) :
    ∀ (raw : List String) (total cnt : Nat),
      RE.processLines m fns best raw total cnt
        = RE.processLines m fns best (raw.filter (fun l => pyStrip l ≠ "")) total cnt
  | [], _, _ => rfl
  | l :: ls, total, cnt => by
    by_cases hb : pyStrip l = ""
    · rw [List.filter_cons_of_neg (by simp [hb])]
      simp only [RE.processLines, if_pos hb]
      exact RE.processLines_filter_blank m fns best ls total cnt
    · rw [List.filter_cons_of_pos (by simp [hb])]
      simp only [RE.processLines, if_neg hb]
      simp only [RE.processLines_filter_blank m fns best ls]

theorem RE.processLines_strict_pos (m : String → Option (List String)) (fns : List String) :
    ∀ (raw : List String) (total cnt : Nat), 1 ≤ cnt →
      RE.processLines m fns false raw total cnt
        = .ok (((cleanLines raw).filter (RE.fullMatchB m fns.length)).map
            (RE.strictEntry m fns))
  | [], _, _, _ => rfl
  | l :: ls, total, cnt, hc => by
    rw [cleanLines_cons]
    by_cases h : pyStrip l = ""
    · rw [if_pos h]
      simp only [RE.processLines, if_pos h]
      exact RE.processLines_strict_pos m fns ls total cnt hc
    · rw [if_neg h]
      simp only [RE.processLines, if_neg h]
      cases hm : m (pyStrip l) with
      | some gs =>
        by_cases hlen : gs.length = fns.length
        · have hfm : RE.fullMatchB m fns.length (pyStrip l) = true := by
            unfold RE.fullMatchB
            rw [hm]
            simp [hlen]
          rw [List.filter_cons_of_pos hfm]
          simp [hm, hlen, RE.processLines_strict_pos m fns ls (total + 1) (cnt + 1) (by omega),
            RE.strictEntry, RE.matchEntry]
        · have hfm : RE.fullMatchB m fns.length (pyStrip l) = false := by
            unfold RE.fullMatchB
            rw [hm]
            simp [hlen]
          rw [List.filter_cons_of_neg (by simp [hfm])]
          have hcnt : ¬ cnt = 0 := by omega
          simp [hm, hlen, hcnt, RE.processLines_strict_pos m fns ls (total + 1) cnt hc]
      | none =>
        have hfm : RE.fullMatchB m fns.length (pyStrip l) = false := by
          unfold RE.fullMatchB
          rw [hm]
        rw [List.filter_cons_of_neg (by simp [hfm])]
        have hcnt : ¬ cnt = 0 := by omega
        simp [hm, hcnt, RE.processLines_strict_pos m fns ls (total + 1) cnt hc]

theorem RE.processLines_strict_fail (m : String → Option (List String)) (fns : List String) :
    ∀ (raw : List String) (total : Nat) (l0 : String),
      (cleanLines raw).head? = some l0 → RE.fullMatchB m fns.length l0 = false →
      RE.processLines m fns false raw total 0 = .err (RE.strictFailMsg (total + 1))
  | [], _, _, h, _ => by simp [cleanLines] at h
  | l :: ls, total, l0, h, hfm => by
    rw [cleanLines_cons] at h
    by_cases hb : pyStrip l = ""
    · rw [if_pos hb] at h
      simp only [RE.processLines, if_pos hb]
      exact RE.processLines_strict_fail m fns ls total l0 h hfm
    · rw [if_neg hb] at h
      simp only [List.head?_cons, Option.some.injEq] at h
      subst h
      simp only [RE.processLines, if_neg hb]
      cases hm : m (pyStrip l) with
      | some gs =>
        have hlen : ¬ gs.length = fns.length := by
          unfold RE.fullMatchB at hfm
          rw [hm] at hfm
          simpa using hfm
        simp [hm, hlen]
      | none =>
        simp [hm]

theorem RE.processLines_strict_first (m : String → Option (List String)) (fns : List String) :
    ∀ (raw : List String) (total : Nat) (l0 : String),
      (cleanLines raw).head? = some l0 → RE.fullMatchB m fns.length l0 = true →
      RE.processLines m fns false raw total 0
        = .ok (((cleanLines raw).filter (RE.fullMatchB m fns.length)).map
            (RE.strictEntry m fns))
  | [], _, _, h, _ => by simp [cleanLines] at h
  | l :: ls, total, l0, h, hfm => by
    rw [cleanLines_cons] at h ⊢
    by_cases hb : pyStrip l = ""
    · rw [if_pos hb] at h ⊢
      simp only [RE.processLines, if_pos hb]
      exact RE.processLines_strict_first m fns ls total l0 h hfm
    · rw [if_neg hb] at h ⊢
      simp only [List.head?_cons, Option.some.injEq] at h
      subst h
      simp only [RE.processLines, if_neg hb]
      cases hm : m (pyStrip l) with
      | some gs =>
        have hlen : gs.length = fns.length := by
          unfold RE.fullMatchB at hfm
          rw [hm] at hfm
          simpa using hfm
        rw [List.filter_cons_of_pos hfm]
        simp [hm, hlen, RE.processLines_strict_pos m fns ls (total + 1) 1 (by omega),
          RE.strictEntry, RE.matchEntry]
      | none =>
        exfalso
        unfold RE.fullMatchB at hfm
        rw [hm] at hfm
        exact Bool.false_ne_true hfm

/-!  The template engine's per-line behavior.  -/

theorem PS.lineEntry_best_isSome (t : PS.PTemplate) (fns en : List String) (line : String) :
    (PS.lineEntry t fns en true line).isSome = true := by
  unfold PS.lineEntry
  cases t.run line <;> simp

theorem PS.filterMap_length_best (t : PS.PTemplate) (fns en : List String) :
    ∀ lines : List String,
      (lines.filterMap (PS.lineEntry t fns en true)).length = lines.length
  | [] => rfl
  | l :: ls => by
    cases hl : PS.lineEntry t fns en true l with
    | none =>
      have := PS.lineEntry_best_isSome t fns en l
      rw [hl] at this
      simp at this
    | some e =>
      simp [List.filterMap_cons, hl, PS.filterMap_length_best t fns en ls]

theorem PS.lineEntry_strict_none_iff (t : PS.PTemplate) (fns en : List String)
    (line : String) :
    PS.lineEntry t fns en false line = none ↔ t.run line = none := by
  unfold PS.lineEntry
  cases t.run line <;> simp

/-- C2: in best-effort discipline, for every readable file and every template
that compiles, the run succeeds and produces exactly one Record per non-empty
input line — no line is dropped and the run never fails, in either engine. -/
theorem c2_best_effort_totality :
    (∀ (rc : String → Except String (String → Option (List String)))
       (fp pat : String) (fns : List String) (raw : List String)
       (m : String → Option (List String)),
      rc (RE.sanitize_pattern pat) = Except.ok m →
      ∃ es, RE.parse_log_file rc fp pat fns (some raw) true = .ok es
        ∧ es.length = (cleanLines raw).length)
    ∧ (∀ (fp : String) (t : PS.PTemplate) (fns : List String) (raw : List String),
      t.compiles = true →
      ∃ es, PS.parse_log_file fp t fns true (some raw) = .ok es
        ∧ es.length = (cleanLines raw).length) := by
  constructor
  · intro rc fp pat fns raw m hm
    refine ⟨(cleanLines raw).map (RE.bestEntry m fns), ?_, by simp⟩
    unfold RE.parse_log_file RE.runCompiled
    rw [hm]
    exact RE.processLines_best m fns raw 0 0
  · intro fp t fns raw hc
    simp only [PS.parse_log_file]
    by_cases hl : (cleanLines raw).isEmpty = true
    · rw [if_pos hl]
      exact ⟨[], rfl, by rw [List.isEmpty_iff.mp hl]; rfl⟩
    · rw [if_neg hl, if_neg (by rw [hc]; simp)]
      refine ⟨(cleanLines raw).filterMap (PS.lineEntry t fns (PS.extract_field_names t) true),
        ?_, PS.filterMap_length_best t fns (PS.extract_field_names t) (cleanLines raw)⟩
      rw [if_neg (by simp)]

theorem c2_witness :
    rcTwo (RE.sanitize_pattern "p") = Except.ok twoFieldMatch
    ∧ (∃ es, RE.parse_log_file rcTwo "log.txt" "p" ["A", "B"] (some ["a b", "", "hello"]) true
        = .ok es ∧ es.length = (cleanLines ["a b", "", "hello"]).length)
    ∧ tAB.compiles = true
    ∧ (∃ es, PS.parse_log_file "log.txt" tAB ["A", "B"] true (some ["a b", "", "hello"])
        = .ok es ∧ es.length = (cleanLines ["a b", "", "hello"]).length) :=
  ⟨rfl,
   c2_best_effort_totality.1 rcTwo "log.txt" "p" ["A", "B"] ["a b", "", "hello"]
     twoFieldMatch rfl,
   rfl,
   c2_best_effort_totality.2 "log.txt" tAB ["A", "B"] ["a b", "", "hello"] rfl⟩

/-- C1 (amended): in strict discipline the two engines differ.  In the regex
engine the zero-match check runs per line: if the FIRST considered (non-empty)
line fails to match fully, the run immediately fails with the diagnostic
"matched 0 of 1 lines" — counting only the lines read so far and never
looking at later lines — while if the first line matches, the run succeeds
and every later non-matching line is dropped without failing the run.  In the
template engine the run is a Failure exactly when no considered line parses
while at least one non-empty line exists, with the diagnostic "0 of N" for N
the total number of considered lines, as the claim states. -/
theorem c1_strict_zero_match :
    (∀ (m : String → Option (List String)) (fp : String) (fns : List String)
       (raw : List String) (l0 : String),
      (cleanLines raw).head? = some l0 → RE.fullMatchB m fns.length l0 = false →
      RE.runCompiled (Except.ok m) fp fns (some raw) false = .err (RE.strictFailMsg 1))
    ∧ (∀ (m : String → Option (List String)) (fp : String) (fns : List String)
       (raw : List String) (l0 : String),
      (cleanLines raw).head? = some l0 → RE.fullMatchB m fns.length l0 = true →
      RE.runCompiled (Except.ok m) fp fns (some raw) false
        = .ok (((cleanLines raw).filter (RE.fullMatchB m fns.length)).map
            (RE.strictEntry m fns)))
    ∧ (∀ (fp : String) (t : PS.PTemplate) (fns : List String) (raw : List String),
      t.compiles = true → cleanLines raw ≠ [] →
      (PS.parse_log_file fp t fns false (some raw)
          = .err (PS.strictFailMsg (cleanLines raw).length)
        ↔ ∀ l ∈ cleanLines raw, t.run l = none))
    ∧ (∀ (fp : String) (t : PS.PTemplate) (fns : List String) (raw : List String),
      t.compiles = true → cleanLines raw ≠ [] →
      (¬ ∀ l ∈ cleanLines raw, t.run l = none) →
      PS.parse_log_file fp t fns false (some raw)
        = .ok ((cleanLines raw).filterMap
            (PS.lineEntry t fns (PS.extract_field_names t) false))) := by
  have hentries : ∀ (t : PS.PTemplate) (fns : List String) (raw : List String),
      ((cleanLines raw).filterMap (PS.lineEntry t fns (PS.extract_field_names t) false) = []
        ↔ ∀ l ∈ cleanLines raw, t.run l = none) := by
    intro t fns raw
    rw [List.filterMap_eq_nil_iff]
    constructor
    · intro h l hl
      exact (PS.lineEntry_strict_none_iff t fns _ l).mp (h l hl)
    · intro h l hl
      exact (PS.lineEntry_strict_none_iff t fns _ l).mpr (h l hl)
  refine ⟨?_, ?_, ?_, ?_⟩
  · intro m fp fns raw l0 h hfm
    unfold RE.runCompiled
    exact RE.processLines_strict_fail m fns raw 0 l0 h hfm
  · intro m fp fns raw l0 h hfm
    unfold RE.runCompiled
    exact RE.processLines_strict_first m fns raw 0 l0 h hfm
  · intro fp t fns raw hc hne
    simp only [PS.parse_log_file]
    rw [if_neg (by simp [hne]), if_neg (by rw [hc]; simp)]
    constructor
    · intro h
      by_cases he : (cleanLines raw).filterMap
          (PS.lineEntry t fns (PS.extract_field_names t) false) = []
      · exact (hentries t fns raw).mp he
      · rw [if_neg (by simp [he])] at h
        exact absurd h (by simp)
    · intro h
      rw [if_pos (by simp [(hentries t fns raw).mpr h])]
  · intro fp t fns raw hc hne hsome
    simp only [PS.parse_log_file]
    rw [if_neg (by simp [hne]), if_neg (by rw [hc]; simp)]
    have hne2 : ¬ ((cleanLines raw).filterMap
        (PS.lineEntry t fns (PS.extract_field_names t) false) = []) :=
      fun he => hsome ((hentries t fns raw).mp he)
    rw [if_neg (by simp [List.isEmpty_iff, hne2])]

theorem c1_witness :
    (cleanLines ["", "hello", "a b"]).head? = some "hello"
    ∧ RE.fullMatchB twoFieldMatch 2 "hello" = false
    ∧ RE.runCompiled (Except.ok twoFieldMatch) "log.txt" ["A", "B"]
        (some ["", "hello", "a b"]) false = .err (RE.strictFailMsg 1)
    ∧ (cleanLines ["a b", "hello"]).head? = some "a b"
    ∧ RE.fullMatchB twoFieldMatch 2 "a b" = true
    ∧ RE.runCompiled (Except.ok twoFieldMatch) "log.txt" ["A", "B"]
        (some ["a b", "hello"]) false
        = .ok (((cleanLines ["a b", "hello"]).filter (RE.fullMatchB twoFieldMatch 2)).map
            (RE.strictEntry twoFieldMatch ["A", "B"]))
    ∧ tAB.compiles = true ∧ cleanLines ["hello"] ≠ []
    ∧ (PS.parse_log_file "log.txt" tAB ["A", "B"] false (some ["hello"])
        = .err (PS.strictFailMsg (cleanLines ["hello"]).length)
      ↔ ∀ l ∈ cleanLines ["hello"], tAB.run l = none) := by
  refine ⟨by decide, by decide,
    c1_strict_zero_match.1 twoFieldMatch "log.txt" ["A", "B"] ["", "hello", "a b"] "hello"
      (by decide) (by decide),
    by decide, by decide,
    c1_strict_zero_match.2.1 twoFieldMatch "log.txt" ["A", "B"] ["a b", "hello"] "a b"
      (by decide) (by decide),
    rfl, by decide,
    c1_strict_zero_match.2.2.1 "log.txt" tAB ["A", "B"] ["hello"] rfl (by decide)⟩

theorem c1_counterexample :
    RE.parse_log_file rcTwo "log.txt" "p" ["A", "B"] (some ["hello", "a b"]) false
      = .err (RE.strictFailMsg 1)
    ∧ "a b" ∈ cleanLines ["hello", "a b"]
    ∧ RE.fullMatchB twoFieldMatch 2 "a b" = true
    ∧ (cleanLines ["hello", "a b"]).length = 2
    ∧ RE.strictFailMsg 1 ≠ RE.strictFailMsg 2 := by
  refine ⟨by decide, by decide, by decide, by decide, by decide⟩

theorem cleanLines_filter_blank (raw : List String) :
    cleanLines (raw.filter (fun l => pyStrip l ≠ "")) = cleanLines raw := by
  unfold cleanLines
  rw [List.filter_map, List.filter_map, List.filter_filter]
  congr 1
  apply List.filter_congr
  intro a _
  simp [Function.comp]

/-- C8: a file with zero non-empty lines yields Success with an empty Record
list under both disciplines in both engines (in the regex engine the pattern
must compile, since compilation precedes reading the file); and blank lines
never produce Records and never count toward the line totals: deleting every
blank line from the input never changes either engine's result. -/
theorem c8_blank_lines :
    (∀ (m : String → Option (List String)) (fp : String) (fns : List String)
       (best : Bool) (raw : List String), cleanLines raw = [] →
      RE.runCompiled (Except.ok m) fp fns (some raw) best = .ok [])
    ∧ (∀ (fp : String) (t : PS.PTemplate) (fns : List String) (best : Bool)
       (raw : List String), cleanLines raw = [] →
      PS.parse_log_file fp t fns best (some raw) = .ok [])
    ∧ (∀ (m : String → Option (List String)) (fp : String) (fns : List String)
       (best : Bool) (raw : List String),
      RE.runCompiled (Except.ok m) fp fns (some raw) best
        = RE.runCompiled (Except.ok m) fp fns
            (some (raw.filter (fun l => pyStrip l ≠ ""))) best)
    ∧ (∀ (fp : String) (t : PS.PTemplate) (fns : List String) (best : Bool)
       (raw : List String),
      PS.parse_log_file fp t fns best (some raw)
        = PS.parse_log_file fp t fns best
            (some (raw.filter (fun l => pyStrip l ≠ "")))) := by
  refine ⟨?_, ?_, ?_, ?_⟩
  · intro m fp fns best raw h
    unfold RE.runCompiled
    exact RE.processLines_nilclean m fns best raw 0 0 h
  · intro fp t fns best raw h
    simp only [PS.parse_log_file]
    rw [if_pos (by simp [h])]
  · intro m fp fns best raw
    unfold RE.runCompiled
    exact RE.processLines_filter_blank m fns best raw 0 0
  · intro fp t fns best raw
    simp only [PS.parse_log_file]
    rw [cleanLines_filter_blank]

theorem c8_witness :
    cleanLines ["", "   "] = []
    ∧ RE.runCompiled (Except.ok twoFieldMatch) "log.txt" ["A", "B"]
        (some ["", "   "]) true = .ok []
    ∧ RE.runCompiled (Except.ok twoFieldMatch) "log.txt" ["A", "B"]
        (some ["", "   "]) false = .ok []
    ∧ PS.parse_log_file "log.txt" tAB ["A", "B"] false (some ["", "   "]) = .ok []
    ∧ PS.parse_log_file "log.txt" tAB ["A", "B"] true (some ["", "   "]) = .ok [] :=
  ⟨by decide,
   c8_blank_lines.1 twoFieldMatch "log.txt" ["A", "B"] true ["", "   "] (by decide),
   c8_blank_lines.1 twoFieldMatch "log.txt" ["A", "B"] false ["", "   "] (by decide),
   c8_blank_lines.2.1 "log.txt" tAB ["A", "B"] false ["", "   "] (by decide),
   c8_blank_lines.2.1 "log.txt" tAB ["A", "B"] true ["", "   "] (by decide)⟩

/-- C6 (amended): both engines return structured failures, but at different
points.  The regex engine checks compilation once per run BEFORE opening the
file (an invalid pattern is reported even when the file is missing) and then
reports a missing file; the template engine reports a missing file, but an
uncompilable template is only detected when the first considered line is
parsed, so a file with zero non-empty lines returns Success despite the
invalid template (see the counterexample), while any run with at least one
considered line fails once, for the whole run, with the template-error
message. -/
theorem c6_runlevel_errors :
    (∀ (rc : String → Except String (String → Option (List String)))
       (fp pat : String) (fns : List String) (fc : Option (List String))
       (best : Bool) (e : String),
      rc (RE.sanitize_pattern pat) = Except.error e →
      RE.parse_log_file rc fp pat fns fc best
        = .err ("Invalid Regex Pattern provided: " ++ e))
    ∧ (∀ (rc : String → Except String (String → Option (List String)))
       (fp pat : String) (fns : List String) (best : Bool)
       (m : String → Option (List String)),
      rc (RE.sanitize_pattern pat) = Except.ok m →
      RE.parse_log_file rc fp pat fns none best
        = .err ("Error: The file was not found at path: " ++ fp))
    ∧ (∀ (fp : String) (t : PS.PTemplate) (fns : List String) (best : Bool),
      PS.parse_log_file fp t fns best none
        = .err ("Error: The file was not found at path: " ++ fp))
    ∧ (∀ (fp : String) (t : PS.PTemplate) (fns : List String) (best : Bool)
       (raw : List String),
      cleanLines raw ≠ [] → t.compiles = false →
      PS.parse_log_file fp t fns best (some raw)
        = .err (PS.templateErrMsg t.compileError)) := by
  refine ⟨?_, ?_, ?_, ?_⟩
  · intro rc fp pat fns fc best e he
    unfold RE.parse_log_file RE.runCompiled
    rw [he]
  · intro rc fp pat fns best m hm
    unfold RE.parse_log_file RE.runCompiled
    rw [hm]
  · intro fp t fns best
    rfl
  · intro fp t fns best raw hne hc
    simp only [PS.parse_log_file]
    rw [if_neg (by simp [hne]), if_pos (by simp [hc])]

theorem c6_witness :
    rcTwo (RE.sanitize_pattern "bad(") = Except.error "missing ), unterminated subpattern"
    ∧ RE.parse_log_file rcTwo "nofile.txt" "bad(" ["A"] none true
        = .err ("Invalid Regex Pattern provided: " ++ "missing ), unterminated subpattern")
    ∧ rcTwo (RE.sanitize_pattern "p") = Except.ok twoFieldMatch
    ∧ RE.parse_log_file rcTwo "nofile.txt" "p" ["A"] none true
        = .err ("Error: The file was not found at path: " ++ "nofile.txt")
    ∧ PS.parse_log_file "nofile.txt" tAB ["A"] true none
        = .err ("Error: The file was not found at path: " ++ "nofile.txt")
    ∧ cleanLines ["zz"] ≠ []
    ∧ tBad.compiles = false
    ∧ PS.parse_log_file "f" tBad ["A"] false (some ["zz"])
        = .err (PS.templateErrMsg tBad.compileError) :=
  ⟨rfl,
   c6_runlevel_errors.1 rcTwo "nofile.txt" "bad(" ["A"] none true
     "missing ), unterminated subpattern" rfl,
   rfl,
   c6_runlevel_errors.2.1 rcTwo "nofile.txt" "p" ["A"] true twoFieldMatch rfl,
   c6_runlevel_errors.2.2.1 "nofile.txt" tAB ["A"] true,
   by decide, rfl,
   c6_runlevel_errors.2.2.2 "f" tBad ["A"] false ["zz"] (by decide) rfl⟩

theorem c6_counterexample :
    PS.parse_log_file "log.txt" tBad ["A"] false (some ["", "  "]) = .ok []
    ∧ PS.parse_log_file "log.txt" tBad ["A"] true (some ["", "  "]) = .ok []
    ∧ tBad.compiles = false :=
  ⟨by decide, by decide, rfl⟩

/-!  Sanitization (C10).  -/

theorem sanitize_data (p : String) :
    (RE.sanitize_pattern p).data
      = p.data.flatMap (fun c => if c = '\\' then ['\\', '\\'] else [c]) := rfl

theorem flatMap_id_of_no_bs : ∀ l : List Char, '\\' ∉ l →
    l.flatMap (fun c => if c = '\\' then ['\\', '\\'] else [c]) = l
  | [], _ => rfl
  | c :: cs, h => by
    have hc : ¬ c = '\\' := fun hh => h (hh ▸ List.mem_cons_self c cs)
    rw [List.flatMap_cons, if_neg hc,
      flatMap_id_of_no_bs cs (fun hm => h (List.mem_cons_of_mem c hm))]
    rfl

theorem sanitize_length : ∀ l : List Char,
    (l.flatMap (fun c => if c = '\\' then ['\\', '\\'] else [c])).length
      = l.length + l.count '\\'
  | [] => rfl
  | c :: cs => by
    rw [List.flatMap_cons, List.length_append, sanitize_length cs]
    by_cases hc : c = '\\'
    · subst hc
      simp [List.count_cons]
      omega
    · simp [List.count_cons, hc]
      omega

/-- C10: neither extraction nor suggestion ever compiles the caller-supplied
pattern verbatim: the string handed to the compile oracle is always
`sanitize_pattern pattern`, which doubles every backslash.  It is the
identity exactly on backslash-free patterns; any pattern containing a
backslash is strictly lengthened (one extra character per backslash, so
`"\\s"` becomes backslash-backslash-`s`, a regex matching a literal
backslash followed by `s`) and therefore compiled with a changed meaning. -/
theorem c10_backslash_doubling :
    (∀ p : String, '\\' ∉ p.data → RE.sanitize_pattern p = p)
    ∧ (∀ p : String, '\\' ∈ p.data →
        (RE.sanitize_pattern p).data.length = p.data.length + p.data.count '\\'
        ∧ RE.sanitize_pattern p ≠ p)
    ∧ RE.sanitize_pattern "\\s" = "\\\\s"
    ∧ (∀ (rc : String → Except String (String → Option (List String)))
        (fp pat : String) (fns : List String) (fc : Option (List String)) (best : Bool),
        RE.parse_log_file rc fp pat fns fc best
          = RE.runCompiled (rc (RE.sanitize_pattern pat)) fp fns fc best)
    ∧ (∀ (rc : String → Except String (String → Option (List String)))
        (sample : List String) (p : RE.PatternDef),
        RE.candKeyO rc sample p
          = match rc (RE.sanitize_pattern p.pattern) with
            | Except.error _ => none
            | Except.ok m =>
              some (RE.matchCount m p.field_names.length sample, p.field_names.length)) := by
  refine ⟨?_, ?_, by decide, fun _ _ _ _ _ _ => rfl, fun _ _ _ => rfl⟩
  · intro p h
    obtain ⟨l⟩ := p
    exact congrArg String.mk (flatMap_id_of_no_bs l h)
  · intro p h
    refine ⟨by rw [sanitize_data]; exact sanitize_length p.data, ?_⟩
    intro heq
    have hlen : (RE.sanitize_pattern p).data.length = p.data.length :=
      congrArg (fun s => s.data.length) heq
    have hlen2 : (RE.sanitize_pattern p).data.length = p.data.length + p.data.count '\\' := by
      rw [sanitize_data]
      exact sanitize_length p.data
    have hpos : 0 < p.data.count '\\' := List.count_pos_iff.mpr h
    omega

theorem c10_witness :
    ('\\' ∉ "abc".data)
    ∧ RE.sanitize_pattern "abc" = "abc"
    ∧ ('\\' ∈ "\\d".data)
    ∧ (RE.sanitize_pattern "\\d").data.length = "\\d".data.length + "\\d".data.count '\\'
    ∧ RE.sanitize_pattern "\\d" ≠ "\\d" := by
  have h1 : '\\' ∉ "abc".data := by decide
  have h2 : '\\' ∈ "\\d".data := by decide
  have h3 := c10_backslash_doubling.2.1 "\\d" h2
  exact ⟨h1, c10_backslash_doubling.1 "abc" h1, h2, h3.1, h3.2⟩

/-!  Dict lemmas and the regex engine's fallback entry (C4).  -/

theorem dictGet_insert_self : ∀ (d : List (String × String)) (k v : String),
    dictGet (dictInsert d k v) k = some v
  | [], k, v => by simp [dictInsert, dictGet]
  | kv :: d, k, v => by
    by_cases h : kv.1 = k
    · simp [dictInsert, dictGet, h]
    · simp only [dictInsert, if_neg h, dictGet]
      exact dictGet_insert_self d k v

theorem dictGet_insert_ne : ∀ (d : List (String × String)) (k v k' : String), k' ≠ k →
    dictGet (dictInsert d k v) k' = dictGet d k'
  | [], k, v, k', h => by
    simp only [dictInsert, dictGet]
    rw [if_neg (fun hh => h hh.symm)]
  | kv :: d, k, v, k', h => by
    by_cases hk : kv.1 = k
    · have hk' : ¬ kv.1 = k' := by
        rw [hk]
        exact fun hh => h hh.symm
      simp only [dictInsert, if_pos hk, dictGet]
      rw [if_neg (fun hh => h hh.symm), if_neg hk']
    · simp only [dictInsert, if_neg hk, dictGet]
      by_cases hk' : kv.1 = k'
      · rw [if_pos hk', if_pos hk']
      · rw [if_neg hk', if_neg hk']
        exact dictGet_insert_ne d k v k' h

theorem dictGet_foldNA : ∀ (names : List String) (acc : List (String × String)) (n : String),
    (dictGet acc n = some "N/A" ∨ n ∈ names) →
    dictGet (names.foldl (fun d m => dictInsert d m "N/A") acc) n = some "N/A"
  | [], acc, n, h => by
    rcases h with h | h
    · exact h
    · exact absurd h (List.not_mem_nil n)
  | m0 :: names, acc, n, h => by
    rw [List.foldl_cons]
    apply dictGet_foldNA names (dictInsert acc m0 "N/A") n
    by_cases he : n = m0
    · left
      rw [he]
      exact dictGet_insert_self acc m0 "N/A"
    · rcases h with h | h
      · left
        rw [dictGet_insert_ne acc m0 "N/A" n he]
        exact h
      · rcases List.mem_cons.mp h with h1 | h2
        · exact absurd h1 he
        · right
          exact h2

/-- C4 (amended): the two engines use different best-effort fallback shapes.
The regex engine populates every non-catch-all declared field with "N/A" and
the catch-all (last declared) field with the "[UNPARSED] "-prefixed full line,
except that a first field named timestamp* or a second field named level*
(case-insensitively) is afterwards overwritten with "N/A" / "UNRECOGNIZED",
which can displace the catch-all content; with field names [A, B] on the
unmatched line "hello" it produces exactly A = "N/A", B = "[UNPARSED] hello",
as the claim's example states.  The template engine instead emits a single
synthetic field FullLine = "[UNPARSED] " + line with FieldOrder collapsed to
[FullLine], populating no declared field at all (see the counterexample). -/
theorem c4_best_effort_fallback :
    (∀ (others : List String) (last line : String),
      (others ++ [last]).Nodup →
      (∀ f ∈ others ++ [last],
        pyStartsWith (pyLower f) "timestamp" = false
        ∧ pyStartsWith (pyLower f) "level" = false) →
      dictGet (RE.fallbackEntry (others ++ [last]) line).fields last
          = some ("[UNPARSED] " ++ line)
        ∧ (∀ n ∈ others,
            dictGet (RE.fallbackEntry (others ++ [last]) line).fields n = some "N/A")
        ∧ (RE.fallbackEntry (others ++ [last]) line).fieldOrder = others ++ [last])
    ∧ RE.parse_log_file rcTwo "log.txt" "p" ["A", "B"] (some ["hello"]) true
        = .ok [⟨[("A", "N/A"), ("B", "[UNPARSED] hello")], ["A", "B"]⟩]
    ∧ (∀ (t : PS.PTemplate) (fns en : List String) (line : String),
        t.run line = none →
        PS.lineEntry t fns en true line
          = some ⟨[("FullLine", "[UNPARSED] " ++ line)], ["FullLine"]⟩) := by
  refine ⟨?_, by decide, ?_⟩
  · intro others last line hnd hts
    have hlast : (others ++ [last]).getLast? = some last := by simp
    have hdrop : (others ++ [last]).dropLast = others := by simp
    have hlast_not : last ∉ others := by
      rw [List.nodup_append] at hnd
      intro hmem
      exact hnd.2.2 hmem (List.mem_singleton_self last)
    have hguard1 : ∀ d : List (String × String),
        (match (others ++ [last]).head? with
         | some f0 =>
           if pyStartsWith (pyLower f0) "timestamp" then dictInsert d f0 "N/A" else d
         | none => d) = d := by
      intro d
      cases hh : (others ++ [last]).head? with
      | none => rfl
      | some f0 =>
        have hf0 : f0 ∈ others ++ [last] := List.mem_of_mem_head? (by rw [hh]; rfl)
        dsimp only
        rw [if_neg (by simp [(hts f0 hf0).1])]
    have hguard2 : ∀ d : List (String × String),
        (match (others ++ [last]).get? 1 with
         | some f1 =>
           if pyStartsWith (pyLower f1) "level" then dictInsert d f1 "UNRECOGNIZED" else d
         | none => d) = d := by
      intro d
      cases hh : (others ++ [last]).get? 1 with
      | none => rfl
      | some f1 =>
        have hf1 : f1 ∈ others ++ [last] := List.get?_mem hh
        dsimp only
        rw [if_neg (by simp [(hts f1 hf1).2])]
    have hfields : (RE.fallbackEntry (others ++ [last]) line).fields
        = dictInsert (others.foldl (fun d n => dictInsert d n "N/A") [])
            last ("[UNPARSED] " ++ line) := by
      simp only [RE.fallbackEntry, hlast, hdrop, Option.getD_some]
      rw [hguard1, hguard2]
    refine ⟨?_, ?_, rfl⟩
    · rw [hfields]
      exact dictGet_insert_self _ last ("[UNPARSED] " ++ line)
    · intro n hn
      have hne : n ≠ last := fun hh => hlast_not (hh ▸ hn)
      rw [hfields, dictGet_insert_ne _ last _ n hne]
      exact dictGet_foldNA others [] n (Or.inr hn)
  · intro t fns en line h
    simp [PS.lineEntry, h]

theorem c4_witness :
    (["A"] ++ ["B"]).Nodup
    ∧ (∀ f ∈ ["A"] ++ ["B"],
        pyStartsWith (pyLower f) "timestamp" = false
        ∧ pyStartsWith (pyLower f) "level" = false)
    ∧ dictGet (RE.fallbackEntry (["A"] ++ ["B"]) "hello").fields "B"
        = some ("[UNPARSED] " ++ "hello")
    ∧ (∀ n ∈ ["A"], dictGet (RE.fallbackEntry (["A"] ++ ["B"]) "hello").fields n
        = some "N/A")
    ∧ (RE.fallbackEntry (["A"] ++ ["B"]) "hello").fieldOrder = ["A"] ++ ["B"]
    ∧ tAB.run "hello" = none
    ∧ PS.lineEntry tAB ["A", "B"] (PS.extract_field_names tAB) true "hello"
        = some ⟨[("FullLine", "[UNPARSED] " ++ "hello")], ["FullLine"]⟩ := by
  have h1 : (["A"] ++ ["B"]).Nodup := by decide
  have h2 : ∀ f ∈ ["A"] ++ ["B"],
      pyStartsWith (pyLower f) "timestamp" = false
      ∧ pyStartsWith (pyLower f) "level" = false := by decide
  have h3 := c4_best_effort_fallback.1 ["A"] "B" "hello" h1 h2
  exact ⟨h1, h2, h3.1, h3.2.1, h3.2.2, rfl,
    c4_best_effort_fallback.2.2 tAB ["A", "B"] (PS.extract_field_names tAB) "hello" rfl⟩

theorem c4_counterexample :
    PS.parse_log_file "log.txt" tAB ["A", "B"] true (some ["hello"])
      = .ok [⟨[("FullLine", "[UNPARSED] hello")], ["FullLine"]⟩]
    ∧ dictGet [("FullLine", "[UNPARSED] hello")] "B" = none
    ∧ dictGet [("FullLine", "[UNPARSED] hello")] "A" = none
    ∧ tAB.namedFields.getLast? = some "B" :=
  ⟨by decide, by decide, by decide, rfl⟩

/-!  Dynamic field discovery in the template engine (C7).  -/

theorem isPrefixOf_append_self (l t : List Char) : l.isPrefixOf (l ++ t) = true := by
  simp

theorem pyStartsWith_append (a b : String) : pyStartsWith (a ++ b) a = true := by
  unfold pyStartsWith
  rw [String.data_append]
  exact isPrefixOf_append_self a.data b.data

theorem foldIns_aux : ∀ (pairs : List (Nat × String)) (acc : List (String × String)),
    (∀ jv ∈ pairs, ∀ kv ∈ acc, kv.1 ≠ "unnamed_" ++ toString (jv.1 + 1)) →
    (pairs.map (fun jv => "unnamed_" ++ toString (jv.1 + 1))).Nodup →
    pairs.foldl
      (fun d jv =>
        let key := "unnamed_" ++ toString (jv.1 + 1)
        if d.any (fun kv => kv.1 = key) then d else d ++ [(key, jv.2)])
      acc
    = acc ++ pairs.map (fun jv => ("unnamed_" ++ toString (jv.1 + 1), jv.2))
  | [], acc, _, _ => by simp
  | jv0 :: pairs, acc, hfresh, hnd => by
    rw [List.foldl_cons]
    have hany : acc.any (fun kv => kv.1 = "unnamed_" ++ toString (jv0.1 + 1)) = false := by
      rw [List.any_eq_false]
      intro kv hkv
      simp [hfresh jv0 (List.mem_cons_self _ _) kv hkv]
    dsimp only
    rw [hany]
    simp only [Bool.false_eq_true, if_false]
    rw [List.map_cons, List.nodup_cons] at hnd
    have hfresh' : ∀ jv ∈ pairs, ∀ kv ∈ acc ++ [("unnamed_" ++ toString (jv0.1 + 1), jv0.2)],
        kv.1 ≠ "unnamed_" ++ toString (jv.1 + 1) := by
      intro jv hjv kv hkv
      rcases List.mem_append.mp hkv with h | h
      · exact hfresh jv (List.mem_cons_of_mem _ hjv) kv h
      · rcases List.mem_singleton.mp h with rfl
        intro hkeq
        have heq2 : "unnamed_" ++ toString (jv0.1 + 1) = "unnamed_" ++ toString (jv.1 + 1) := hkeq
        apply hnd.1
        rw [heq2]
        exact List.mem_map_of_mem (fun jv => "unnamed_" ++ toString (jv.1 + 1)) hjv
    rw [foldIns_aux pairs _ hfresh' hnd.2]
    simp

theorem PS.dataOf_eq (r : PS.PRes)
    (hn : ∀ kv ∈ r.named, pyStartsWith kv.1 "unnamed_" = false)
    (hfresh : (PS.synthKeys r).Nodup) :
    PS.dataOf r = r.named ++ PS.synthList r := by
  unfold PS.dataOf PS.synthList
  apply foldIns_aux
  · intro jv _ kv hkv hkeq
    have h1 := hn kv hkv
    rw [hkeq, pyStartsWith_append] at h1
    exact Bool.noConfusion h1
  · exact hfresh

theorem foldOut_skip : ∀ (data : List (String × String)) (acc : List String),
    (∀ kv ∈ data, pyStartsWith kv.1 "unnamed_" = false) →
    data.foldl
      (fun acc kv =>
        if pyStartsWith kv.1 "unnamed_" ∧ ¬ acc.contains kv.1 then acc ++ [kv.1] else acc)
      acc = acc
  | [], _, _ => rfl
  | kv0 :: data, acc, h => by
    rw [List.foldl_cons]
    rw [if_neg (by simp [h kv0 (List.mem_cons_self _ _)])]
    exact foldOut_skip data acc (fun kv hkv => h kv (List.mem_cons_of_mem _ hkv))

theorem foldOut_append : ∀ (data : List (String × String)) (acc : List String),
    (∀ kv ∈ data, pyStartsWith kv.1 "unnamed_" = true) →
    (data.map Prod.fst).Nodup →
    (∀ kv ∈ data, kv.1 ∉ acc) →
    data.foldl
      (fun acc kv =>
        if pyStartsWith kv.1 "unnamed_" ∧ ¬ acc.contains kv.1 then acc ++ [kv.1] else acc)
      acc = acc ++ data.map Prod.fst
  | [], acc, _, _, _ => by simp
  | kv0 :: data, acc, hs, hnd, hna => by
    rw [List.foldl_cons]
    have hc : acc.contains kv0.1 = false := by
      simpa using hna kv0 (List.mem_cons_self _ _)
    rw [if_pos ⟨hs kv0 (List.mem_cons_self _ _), by rw [hc]; exact Bool.false_ne_true⟩]
    rw [List.map_cons, List.nodup_cons] at hnd
    have hna' : ∀ kv ∈ data, kv.1 ∉ acc ++ [kv0.1] := by
      intro kv hkv
      simp only [List.mem_append, List.mem_singleton]
      rintro (h | h)
      · exact hna kv (List.mem_cons_of_mem _ hkv) h
      · exact hnd.1 (h ▸ List.mem_map_of_mem Prod.fst hkv)
    rw [foldOut_append data _ (fun kv hkv => hs kv (List.mem_cons_of_mem _ hkv)) hnd.2 hna']
    simp

theorem map_fst_synthList (r : PS.PRes) :
    (PS.synthList r).map Prod.fst = PS.synthKeys r := by
  unfold PS.synthList PS.synthKeys
  rw [List.map_map]
  rfl

theorem PS.outFieldNames_eq (expectedNamed : List String) (r : PS.PRes)
    (hn : ∀ kv ∈ r.named, pyStartsWith kv.1 "unnamed_" = false)
    (he : ∀ f ∈ expectedNamed, pyStartsWith f "unnamed_" = false)
    (hfresh : (PS.synthKeys r).Nodup) :
    PS.outFieldNames expectedNamed (PS.dataOf r) = expectedNamed ++ PS.synthKeys r := by
  rw [PS.dataOf_eq r hn hfresh]
  unfold PS.outFieldNames
  rw [List.foldl_append, foldOut_skip r.named expectedNamed hn]
  have hs : ∀ kv ∈ PS.synthList r, pyStartsWith kv.1 "unnamed_" = true := by
    intro kv hkv
    obtain ⟨jv, _, rfl⟩ := List.mem_map.mp hkv
    exact pyStartsWith_append "unnamed_" (toString (jv.1 + 1))
  have hna : ∀ kv ∈ PS.synthList r, kv.1 ∉ expectedNamed := by
    intro kv hkv hmem
    have h1 := he kv.1 hmem
    rw [hs kv hkv] at h1
    exact Bool.noConfusion h1
  rw [foldOut_append (PS.synthList r) expectedNamed hs
    (by rw [map_fst_synthList]; exact hfresh) hna]
  rw [map_fst_synthList]

/-- C7 (amended): under dynamic field discovery, for every line whose parse
succeeds, the positional captures are added to the data under synthetic names
`unnamed_1`, `unnamed_2`, … in first-seen order and appended after the
template's named fields in the derived output field list (provided no named
field itself uses an `unnamed_*` name); and whenever that derived list is
NON-EMPTY and differs from the caller-supplied `field_names`, the Record's
`FieldOrder` is the derived list — the actual order used — rather than the
caller's stale list.  A template producing no fields at all leaves the
caller's stale `FieldOrder` in place (see the counterexample). -/
theorem c7_dynamic_fields :
    ∀ (t : PS.PTemplate) (fns : List String) (line : String) (r : PS.PRes),
      t.run line = some r →
      (∀ kv ∈ r.named, pyStartsWith kv.1 "unnamed_" = false) →
      (∀ f ∈ PS.extract_field_names t, pyStartsWith f "unnamed_" = false) →
      (PS.synthKeys r).Nodup →
      PS.dataOf r = r.named ++ PS.synthList r
      ∧ PS.outFieldNames (PS.extract_field_names t) (PS.dataOf r)
          = PS.extract_field_names t ++ PS.synthKeys r
      ∧ (PS.extract_field_names t ++ PS.synthKeys r ≠ [] →
          fns ≠ PS.extract_field_names t ++ PS.synthKeys r →
          ∀ best : Bool,
            PS.lineEntry t fns (PS.extract_field_names t) best line
              = some ⟨(PS.dataOf r).map (fun kv => (kv.1, pyStrip kv.2)),
                      PS.extract_field_names t ++ PS.synthKeys r⟩) := by
  intro t fns line r hrun hn he hfresh
  have hout := PS.outFieldNames_eq (PS.extract_field_names t) r hn he hfresh
  refine ⟨PS.dataOf_eq r hn hfresh, hout, ?_⟩
  intro hne hdiff best
  unfold PS.lineEntry
  rw [hrun]
  dsimp only
  rw [hout, if_pos ⟨hdiff, hne⟩]

theorem c7_witness :
    tMixed.run "x y" = some cexR
    ∧ PS.dataOf cexR = cexR.named ++ PS.synthList cexR
    ∧ PS.outFieldNames (PS.extract_field_names tMixed) (PS.dataOf cexR)
        = PS.extract_field_names tMixed ++ PS.synthKeys cexR
    ∧ PS.lineEntry tMixed ["A", "B"] (PS.extract_field_names tMixed) true "x y"
        = some ⟨(PS.dataOf cexR).map (fun kv => (kv.1, pyStrip kv.2)),
                PS.extract_field_names tMixed ++ PS.synthKeys cexR⟩ := by
  have h := c7_dynamic_fields tMixed ["A", "B"] "x y" cexR rfl
    (by decide) (by decide) (by decide)
  exact ⟨rfl, h.1, h.2.1, h.2.2 (by decide) (by decide) true⟩

theorem c7_counterexample :
    PS.parse_log_file "log.txt" tLit ["A"] true (some ["abc"]) = .ok [⟨[], ["A"]⟩]
    ∧ tLit.run "abc" = some ⟨[], []⟩
    ∧ PS.outFieldNames (PS.extract_field_names tLit) (PS.dataOf ⟨[], []⟩) = []
    ∧ PS.extract_field_names tLit ++ PS.synthKeys ⟨[], []⟩ = []
    ∧ (["A"] : List String) ≠ [] :=
  ⟨by decide, rfl, rfl, rfl, by decide⟩
